import Mathlib

/-!
Shallow embedding of the wave-refraction engine
(`src/waveRefraction.ts` and the ray/feature code of
`src/WaveRefractionView.tsx`) over the real numbers, together with
theorems settling the specification claims.

JavaScript numbers are modelled as real numbers; `Math.tanh`, `Math.asin`,
`Math.exp`, ... become the corresponding `Real` functions.  `Math.round`
is floor of `x + 1/2` (JS rounds half towards positive infinity).
-/

open Real

namespace WaveRef

noncomputable section
open Classical

/-! ### Dispersion solver (`waveRefraction.ts`, lines 10-106) -/

/-- `const GRAVITY = 9.81`. -/
def GRAVITY : ℝ := 9.81

/-- `const MAX_ITERATIONS = 100`. -/
def MAX_ITERATIONS : ℕ := 100

/-- `const TOLERANCE = 1e-6`. -/
def TOLERANCE : ℝ := 1e-6

/-- `sech²(x) = 1 / (cosh x * cosh x)`, as computed in the solver. -/
def sech2 (x : ℝ) : ℝ := 1 / (Real.cosh x * Real.cosh x)

/-- `f(k) = g·k·tanh(k·h) - σ²` (line 62). -/
def dispF (h σ2 k : ℝ) : ℝ := GRAVITY * k * Real.tanh (k * h) - σ2

/-- `f'(k) = g·tanh(k·h) + g·k·h·sech²(k·h)` (line 65). -/
def dispDF (h k : ℝ) : ℝ :=
  GRAVITY * Real.tanh (k * h) + GRAVITY * k * h * sech2 (k * h)

/-- One Newton update `k_new = k - f/df` (line 68). -/
def newtonStep (h σ2 k : ℝ) : ℝ := k - dispF h σ2 k / dispDF h k

/-- The iteration loop of `solveWaveNumber` (lines 56-75): at most `fuel`
Newton updates, returning the updated value as soon as
`|k_new - k| < TOLERANCE`, and the current iterate when the fuel
(the iteration cap) is exhausted. -/
def solveGo (h σ2 : ℝ) : ℕ → ℝ → ℝ
  | 0, k => k
  | n + 1, k =>
      let kn := newtonStep h σ2 k
      if |kn - k| < TOLERANCE then kn else solveGo h σ2 n kn

/-- `solveWaveNumber(h, T)` (lines 48-79): Newton iteration on the
dispersion relation starting from the deep-water guess `σ²/g`. -/
def solveWaveNumber (h T : ℝ) : ℝ :=
  let sigma := 2 * π / T
  solveGo h (sigma * sigma) MAX_ITERATIONS (sigma * sigma / GRAVITY)

structure DispersionResult where
  k : ℝ
  L : ℝ
  T : ℝ
  C : ℝ

/-- `solveFromWavelength(h, L)` (lines 84-95). -/
def solveFromWavelength (h L : ℝ) : DispersionResult :=
  let k := 2 * π / L
  let sigma2 := GRAVITY * k * Real.tanh (k * h)
  let sigma := Real.sqrt sigma2
  let T := 2 * π / sigma
  ⟨k, L, T, L / T⟩

/-- `solveDispersion(h, T)` (lines 100-106). -/
def solveDispersion (h T : ℝ) : DispersionResult :=
  let k := solveWaveNumber h T
  let L := 2 * π / k
  ⟨k, L, T, L / T⟩

/-- Second derivative of the dispersion function. -/
def dispDF2 (h k : ℝ) : ℝ :=
  2 * GRAVITY * h * sech2 (k * h) * (1 - k * h * Real.tanh (k * h))

/-! #### The convergence predicate of the Newton loop -/

/-- The stopping criterion `|k_new - k| < TOLERANCE` fires within `n` further
iterations of the Newton loop started at iterate `k`. -/
def stopsWithin (h σ2 : ℝ) : ℕ → ℝ → Prop
  | 0, _ => False
  | n + 1, k => |newtonStep h σ2 k - k| < TOLERANCE ∨
      (¬ |newtonStep h σ2 k - k| < TOLERANCE ∧
        stopsWithin h σ2 n (newtonStep h σ2 k))

/-! ### Terrain model (`waveRefraction.ts`, lines 112-274) -/

structure CoastlinePoint where
  x : ℝ
  y : ℝ

structure TerrainConfig where
  width : ℝ
  height : ℝ
  gridX : ℕ
  gridY : ℕ
  slope : ℝ
  bayDepth : ℝ
  capeExtension : ℝ
  coastlineBaselineRatio : Option ℝ

/-- `coastlineFunction(x, config)` (lines 147-172). -/
def coastlineFunction (x : ℝ) (config : TerrainConfig) : ℝ :=
  let baselineRatio := config.coastlineBaselineRatio.getD 0.15
  let baselineY := baselineRatio * config.height
  let bayCenter := 0.28 * config.width
  let baySigma := 0.05 * config.width
  let bayScale : ℝ := 2.6
  let bayEffect := bayScale * config.bayDepth *
    Real.exp (-0.5 * ((x - bayCenter) / baySigma) ^ 2)
  let capeCenter := 0.68 * config.width
  let capeSigma := 0.10 * config.width
  let capeScale : ℝ := 1.10
  let capeEffect := capeScale * config.capeExtension *
    Real.exp (-0.5 * ((x - capeCenter) / capeSigma) ^ 2)
  let rawY := baselineY - bayEffect + capeEffect
  let minY := 0.02 * config.height
  let maxY := 0.6 * config.height
  max minY (min rawY maxY)

/-- `generateCoastline(config, samples)` (lines 177-187). -/
def generateCoastline (config : TerrainConfig) (samples : ℕ) :
    List CoastlinePoint :=
  (List.range (samples + 1)).map fun i =>
    let x := ((i : ℝ) / (samples : ℝ)) * config.width
    ⟨x, coastlineFunction x config⟩

/-- Modelled from the claim's words (for comparison with the source):
baseline height PLUS the concave Gaussian bay term MINUS the convex
Gaussian cape term, clamped into `[0.02·height, 0.6·height]`. -/
def claimCoastlineFunction (x : ℝ) (config : TerrainConfig) : ℝ :=
  let baselineRatio := config.coastlineBaselineRatio.getD 0.15
  let baselineY := baselineRatio * config.height
  let bayCenter := 0.28 * config.width
  let baySigma := 0.05 * config.width
  let bayScale : ℝ := 2.6
  let bayEffect := bayScale * config.bayDepth *
    Real.exp (-0.5 * ((x - bayCenter) / baySigma) ^ 2)
  let capeCenter := 0.68 * config.width
  let capeSigma := 0.10 * config.width
  let capeScale : ℝ := 1.10
  let capeEffect := capeScale * config.capeExtension *
    Real.exp (-0.5 * ((x - capeCenter) / capeSigma) ^ 2)
  let rawY := baselineY + bayEffect - capeEffect
  let minY := 0.02 * config.height
  let maxY := 0.6 * config.height
  max minY (min rawY maxY)

/-- Modelled from the amended claim: baseline height MINUS the bay Gaussian
term PLUS the cape Gaussian term (the bay indents the coastline towards the
land edge at the bottom of the domain, the cape juts towards open water),
clamped into `[0.02·height, 0.6·height]`. -/
def amendedCoastlineFunction (x : ℝ) (config : TerrainConfig) : ℝ :=
  (config.coastlineBaselineRatio.getD 0.15) * config.height
    - 2.6 * config.bayDepth *
        Real.exp (-0.5 * ((x - 0.28 * config.width) / (0.05 * config.width)) ^ 2)
    + 1.10 * config.capeExtension *
        Real.exp (-0.5 * ((x - 0.68 * config.width) / (0.10 * config.width)) ^ 2)
  |> fun rawY => max (0.02 * config.height) (min rawY (0.6 * config.height))

/-! ### Depth grid and the two direction-field passes
(`waveRefraction.ts`, lines 232-433) -/

structure GridPoint where
  x : ℝ
  y : ℝ
  h : ℝ
  k : ℝ
  c : ℝ
  alpha : ℝ

/-- A grid is addressed as `grid j i` (`grid[j][i]` in the source); cells
outside the `gridY × gridX` range are never written. -/
abbrev Grid := ℕ → ℕ → GridPoint

/-- `generateTerrain(config)` (lines 232-274). -/
def generateTerrain (config : TerrainConfig) : Grid := fun j i =>
  let dx := config.width / ((config.gridX : ℝ) - 1)
  let dy := config.height / ((config.gridY : ℝ) - 1)
  let y := (j : ℝ) * dy
  let x := (i : ℝ) * dx
  let coastlineY := coastlineFunction x config
  let h := if y ≤ coastlineY then (0:ℝ) else (y - coastlineY) * config.slope
  ⟨x, y, h, 0, 0, 0⟩

/-- `updateWaveNumbers(grid, T)` (lines 279-294). -/
def updateWaveNumbers (gy gx : ℕ) (grid : Grid) (T : ℝ) : Grid := fun j i =>
  if j < gy ∧ i < gx then
    let point := grid j i
    if point.h > 0.1 then
      { point with k := solveWaveNumber point.h T,
                   c := 2 * π / T / solveWaveNumber point.h T }
    else
      { point with k := 0, c := 0 }
  else grid j i

/-- The wetness test used by the direction solver:
`point.h > 0.1 && point.k > 0` (line 316). -/
def isWet (p : GridPoint) : Prop := p.h > 0.1 ∧ p.k > 0

/-- The per-column scan of lines 314-322: from the deep-water row
`j = gy - 1` downwards, the first row whose cell is wet (the loop `break`s
there). -/
def findTopWet (grid : Grid) (i : ℕ) : ℕ → Option ℕ
  | 0 => none
  | j + 1 => if isWet (grid j i) then some j else findTopWet grid i j

/-- The per-column Snell constant `c·sin(α₀)` stored by the scan
(line 318), 0 if the column has no wet cell (line 310). -/
def snellConstant (gy : ℕ) (grid : Grid) (sigma alpha0 : ℝ) (i : ℕ) : ℝ :=
  match findTopWet grid i gy with
  | some j => sigma / (grid j i).k * Real.sin alpha0
  | none => 0

/-- The final wave angle of cell `(j, i)` after `updateWaveDirections`:
cells of rows `j ≤ gy - 2` get the marching value of lines 326-358 (each
cell is written exactly once, from `snellConstants` and its own `h`, `k`),
the first wet cell of each column keeps the `α₀` assigned by the scan
(line 319) unless overwritten by the marching loop, and all other cells
keep their previous angle.  Over ℝ the `Number.isNaN(alpha)` test of line
347 is vacuous: `asin` is applied to a value clamped into
`[-0.999, 0.999]`. -/
def analyticAlpha (gy gx : ℕ) (grid : Grid) (sigma alpha0 : ℝ)
    (j i : ℕ) : ℝ :=
  if j < gy - 1 ∧ i < gx then
    let point := grid j i
    if point.h ≤ 0.1 ∨ point.k ≤ 0 then 0
    else if snellConstant gy grid sigma alpha0 i = 0 then 0
    else
      let c := sigma / point.k
      let ratio0 := snellConstant gy grid sigma alpha0 i / c
      let sgn : ℝ := if 0 ≤ ratio0 then 1 else -1
      let ratio := min 0.999 (max (-0.999) ratio0)
      let alpha := Real.arcsin ratio
      if Real.cos alpha ≤ 0 then sgn * (π / 2 - 0.01) else alpha
  else if i < gx ∧ findTopWet grid i gy = some j then alpha0
  else (grid j i).alpha

/-- `updateWaveDirections(grid, T, alpha0)` (lines 300-360): the two loops
only ever assign `point.alpha`, so the pass is the identity on every other
field. -/
def updateWaveDirections (gy gx : ℕ) (grid : Grid) (T alpha0 : ℝ) : Grid :=
  if gy = 0 ∨ gx = 0 then grid
  else fun j i =>
    { grid j i with alpha := analyticAlpha gy gx grid (2 * π / T) alpha0 j i }

/-- The wavefront interpolation ratio of `WaveRefractionView.tsx`
(lines 404-405): the arc-length denominator is guarded by the epsilon
`1e-6` before dividing. -/
def wavefrontRatio (currDist nextDist target : ℝ) : ℝ :=
  let denom := currDist - nextDist
  if denom > 1e-6 then (currDist - target) / denom else 0

/-! ### The finite-difference direction pass
(`updateWaveDirectionsFDM`, lines 369-433) -/

/-- In-place mutation of one grid cell (`grid[j][i] = p`). -/
def writeCell (g : Grid) (j i : ℕ) (p : GridPoint) : Grid :=
  fun j' i' => if j' = j ∧ i' = i then p else g j' i'

/-- The 10-pass inner loop of lines 418-426.  The residual is computed
before the loop and never changes across the passes, so each pass applies
the same conditional step `alpha -= 0.1 * residual`. -/
def fdmIterLoop (residual : ℝ) : ℕ → ℝ → ℝ
  | 0, alpha => alpha
  | n + 1, alpha =>
      fdmIterLoop residual n
        (if |residual| > 1e-6 then alpha - 0.1 * residual else alpha)

/-- The body of the FDM double loop for cell `(j, i)` (lines 388-430),
reading neighbour values from the current, partially updated grid. -/
def fdmCell (gy gx : ℕ) (dx dy alpha0 : ℝ) (g : Grid) (j i : ℕ) : GridPoint :=
  let point := g j i
  if point.h ≤ 0.1 ∨ point.k ≤ 0 then { point with alpha := 0 }
  else
    let k_cos_up := if j + 1 < gy then
        (g (j + 1) i).k * Real.cos ((g (j + 1) i).alpha) else 0
    let k_cos_down := if 1 ≤ j then
        (g (j - 1) i).k * Real.cos ((g (j - 1) i).alpha) else 0
    let k_sin_right := if i + 1 < gx then
        (g j (i + 1)).k * Real.sin ((g j (i + 1)).alpha) else 0
    let k_sin_left := if 1 ≤ i then
        (g j (i - 1)).k * Real.sin ((g j (i - 1)).alpha) else 0
    let d_kcos_dy := (k_cos_up - k_cos_down) / (2 * dy)
    let d_ksin_dx := (k_sin_right - k_sin_left) / (2 * dx)
    let alphaInit := if j + 1 < gy then (g (j + 1) i).alpha else alpha0
    let alpha := fdmIterLoop (d_kcos_dy + d_ksin_dx) 10 alphaInit
    { point with alpha := max (-(π / 2)) (min (π / 2) alpha) }

/-- One row `j` of the FDM marching loop: columns `i = 0 .. gx-1`, in
order, each write visible to the next. -/
def fdmRow (gy gx : ℕ) (dx dy alpha0 : ℝ) (j : ℕ) (g : Grid) : Grid :=
  (List.range gx).foldl
    (fun g' i => writeCell g' j i (fdmCell gy gx dx dy alpha0 g' j i)) g

/-- `updateWaveDirectionsFDM(grid, T, alpha0)` (lines 369-433): guard on an
empty grid; the top row `j = gy-1` is set to `α₀` unconditionally
(lines 380-382); rows `j = gy-2` down to `0` are then processed in place.
The period `T` is accepted but never read, as in the source. -/
def updateWaveDirectionsFDM (gy gx : ℕ) (grid : Grid) (T alpha0 : ℝ) :
    Grid :=
  if gy = 0 ∨ gx = 0 then grid
  else
    let dx := (grid 0 1).x - (grid 0 0).x
    let dy := (grid 1 0).y - (grid 0 0).y
    let gTop : Grid := fun j i =>
      if j = gy - 1 ∧ i < gx then { grid j i with alpha := alpha0 }
      else grid j i
    ((List.range (gy - 1)).reverse).foldl
      (fun g j => fdmRow gy gx dx dy alpha0 j g) gTop

/-- Two grids that agree on every field except possibly `alpha`. -/
def eqExceptAlpha (g g' : Grid) : Prop :=
  ∀ j i, (g' j i).x = (g j i).x ∧ (g' j i).y = (g j i).y ∧
    (g' j i).h = (g j i).h ∧ (g' j i).k = (g j i).k ∧
    (g' j i).c = (g j i).c

/-! ### Coastal feature detection
(`WaveRefractionView.tsx`, lines 82-148) -/

/-- `Math.sign` over the reals. -/
def jsSign (x : ℝ) : ℝ := if x > 0 then 1 else if x < 0 then -1 else 0

inductive FeatureType
  | bay
  | cape
deriving DecidableEq

structure CoastalFeature where
  type : FeatureType
  x : ℝ
  strength : ℝ
  bandwidth : ℝ

/-- `coastlineStep` (line 82). -/
def coastlineStepOf (coastline : List CoastlinePoint) : ℝ :=
  if 1 < coastline.length then
    (coastline.getD 1 ⟨0, 0⟩).x - (coastline.getD 0 ⟨0, 0⟩).x
  else 1

/-- The second-difference curvature sample (lines 89-96); endpoints are 0.
Every read the detector performs is in range, so `getD` with a default is
exact. -/
def curvAt (coastline : List CoastlinePoint) (step : ℝ) (idx : ℕ) : ℝ :=
  if idx = 0 ∨ idx = coastline.length - 1 then 0
  else ((coastline.getD (idx + 1) ⟨0, 0⟩).y
      - 2 * (coastline.getD idx ⟨0, 0⟩).y
      + (coastline.getD (idx - 1) ⟨0, 0⟩).y) / (step * step)

/-- `curvatures.reduce((max, value) => Math.max(max, Math.abs(value)), 0)`
(line 98). -/
def maxAbsCurvature (coastline : List CoastlinePoint) (step : ℝ) : ℝ :=
  (List.range coastline.length).foldl
    (fun m idx => max m |curvAt coastline step idx|) 0

structure GrowState where
  segmentEnd : ℕ
  weightedSum : ℝ
  weightTotal : ℝ
  peakStrength : ℝ

/-- The run-growing inner loop (lines 121-127). -/
def growRun (coastline : List CoastlinePoint) (step sign threshold : ℝ) :
    ℕ → GrowState → GrowState
  | 0, s => s
  | fuel + 1, s =>
      if s.segmentEnd < coastline.length - 1 ∧
          jsSign (curvAt coastline step s.segmentEnd) = sign ∧
          |curvAt coastline step s.segmentEnd| ≥ threshold * 0.4 then
        growRun coastline step sign threshold fuel
          { segmentEnd := s.segmentEnd + 1,
            weightedSum := s.weightedSum +
              (coastline.getD s.segmentEnd ⟨0, 0⟩).x *
                |curvAt coastline step s.segmentEnd|,
            weightTotal := s.weightTotal +
              |curvAt coastline step s.segmentEnd|,
            peakStrength := max s.peakStrength
              |curvAt coastline step s.segmentEnd| }
      else s

/-- The outer detection loop (lines 106-145), as fuel recursion; the fuel
`coastline.length` is enough, as each iteration advances `idx`. -/
def detectGo (coastline : List CoastlinePoint) (step maxAbs threshold : ℝ) :
    ℕ → ℕ → List CoastalFeature
  | 0, _ => []
  | fuel + 1, idx =>
      if idx < coastline.length - 1 then
        if |curvAt coastline step idx| < threshold then
          detectGo coastline step maxAbs threshold fuel (idx + 1)
        else
          let sign := jsSign (curvAt coastline step idx)
          let s := growRun coastline step sign threshold
            (coastline.length - idx) ⟨idx, 0, 0, |curvAt coastline step idx|⟩
          let defaultIdx := (idx + s.segmentEnd + 1) / 2
          let centerX := if s.weightTotal > 0 then
              s.weightedSum / s.weightTotal
            else (coastline.getD (min (coastline.length - 1) defaultIdx)
              ⟨0, 0⟩).x
          let span : ℕ := max 2 (s.segmentEnd - idx + 1)
          let bandwidth := max (step * 8) (Real.sqrt (span : ℝ) * step * 1.6)
          ⟨if sign > 0 then FeatureType.bay else FeatureType.cape,
              centerX, s.peakStrength / maxAbs, bandwidth⟩ ::
            detectGo coastline step maxAbs threshold fuel (s.segmentEnd + 1)
      else []

/-- `coastalFeatures` (lines 84-148). -/
def coastalFeatures (coastline : List CoastlinePoint) :
    List CoastalFeature :=
  if coastline.length < 5 ∨ coastlineStepOf coastline ≤ 0 then []
  else if maxAbsCurvature coastline (coastlineStepOf coastline) < 1e-6 then []
  else detectGo coastline (coastlineStepOf coastline)
    (maxAbsCurvature coastline (coastlineStepOf coastline))
    (maxAbsCurvature coastline (coastlineStepOf coastline) * 0.18)
    coastline.length 1

/-! ### Wave-ray tracing
(`WaveRefractionView.tsx`, lines 167-277) -/

structure RayPoint where
  x : ℝ
  y : ℝ

/-- The interpolation scan of `getCoastlineY` (lines 177-185): find the
first node with `x ≤ next.x` and interpolate from the previous one; falls
through to the last node's `y`. -/
def interpY : List CoastlinePoint → CoastlinePoint → ℝ → ℝ
  | [], prev, _ => prev.y
  | next :: rest, prev, x =>
      if x ≤ next.x then
        let t := (x - prev.x) / (next.x - prev.x)
        prev.y + t * (next.y - prev.y)
      else interpY rest next x

/-- `getCoastlineY(x)` (lines 171-186). -/
def getCoastlineY (coastline : List CoastlinePoint) (x : ℝ) : ℝ :=
  match coastline with
  | [] => 0
  | c0 :: rest =>
      if x ≤ c0.x then c0.y
      else if x ≥ ((c0 :: rest).getLastD ⟨0, 0⟩).x then
        ((c0 :: rest).getLastD ⟨0, 0⟩).y
      else interpY rest c0 x

/-- `samplePoint(x, y)` (lines 188-195): `undefined` outside the domain,
otherwise the cell at the rounded, clamped indices (`Math.round(v)` is
`⌊v + 1/2⌋`). -/
def samplePoint (gridX gridY : ℕ) (domainWidth domainHeight : ℝ)
    (dxPhys dyPhys : ℝ) (grid : Grid) (x y : ℝ) : Option GridPoint :=
  if x < 0 ∨ x > domainWidth ∨ y < 0 ∨ y > domainHeight then none
  else
    let col := min ((gridX : ℤ) - 1) (max 0 ⌊x / dxPhys + 1 / 2⌋)
    let row := min ((gridY : ℤ) - 1) (max 0 ⌊y / dyPhys + 1 / 2⌋)
    some (grid row.toNat col.toNat)

/-- The accumulated lateral adjustment over the detected coastal features
(lines 239-249). -/
def lateralAdjustment (features : List CoastalFeature) (currentX : ℝ) :
    ℝ :=
  features.foldl (fun acc feature =>
    let dxToCenter := currentX - feature.x
    let variance := max 4 (feature.bandwidth * feature.bandwidth)
    let featureInfluence :=
      Real.exp (-(dxToCenter * dxToCenter) / (2 * variance))
    if featureInfluence < 1e-5 then acc
    else acc + (if feature.type = FeatureType.bay then (1:ℝ) else -1) *
      (dxToCenter / max feature.bandwidth 10) * feature.strength *
      featureInfluence) 0

/-- The per-step displacement of the marching loop (lines 220-262): the
Snell step `(sin α, cos α)·stepSize`, the near-shore lateral adjustment,
and the `±0.75·stepSize` clamp; returns the new `(currentX, currentY)`. -/
def traceMove (domainHeight stepSize : ℝ)
    (coastline : List CoastlinePoint) (features : List CoastalFeature)
    (pt : GridPoint) (currentX currentY : ℝ) : ℝ × ℝ :=
  let dxStep := Real.sin pt.alpha * stepSize
  let dyStep := Real.cos pt.alpha * stepSize
  let coastlineY := getCoastlineY coastline currentX
  let distanceToCoast := max 0 (currentY - coastlineY)
  let influenceThreshold := domainHeight * 0.35
  let adjustedDx :=
    if distanceToCoast > 0.01 ∧ distanceToCoast < influenceThreshold ∧
        features ≠ [] then
      let normalizedDist := distanceToCoast / influenceThreshold
      let nearShoreWeight := (1 - normalizedDist) ^ 3
      let lat := lateralAdjustment features currentX
      if |lat| > 1e-6 then
        dxStep + lat * nearShoreWeight * (stepSize * 0.65)
      else dxStep
    else dxStep
  let maxShift := stepSize * 0.75
  let adjustedDx2 := max (-maxShift) (min maxShift adjustedDx)
  (currentX + adjustedDx2, currentY - dyStep)

/-- The marching loop of `traceRayFromDeep` (lines 209-270), as fuel
recursion on the remaining steps; returns the points pushed from the
current position on, and the final `currentX` (used by the line-272
fix-up). -/
def traceGo (gridX gridY : ℕ) (domainWidth domainHeight : ℝ)
    (dxPhys dyPhys stepSize : ℝ) (grid : Grid)
    (coastline : List CoastlinePoint) (features : List CoastalFeature) :
    ℕ → ℝ → ℝ → List RayPoint × ℝ
  | 0, currentX, _ => ([], currentX)
  | fuel + 1, currentX, currentY =>
      let sample := samplePoint gridX gridY domainWidth domainHeight
        dxPhys dyPhys grid currentX currentY
      if sample = none ∨ (sample.getD ⟨0, 0, 0, 0, 0, 0⟩).h ≤ 0.1 then
        let clampX := max 0 (min domainWidth currentX)
        (([⟨clampX, getCoastlineY coastline clampX⟩] : List RayPoint),
          currentX)
      else
        let mv := traceMove domainHeight stepSize coastline features
          (sample.getD ⟨0, 0, 0, 0, 0, 0⟩) currentX currentY
        if mv.1 < 0 ∨ mv.1 > domainWidth ∨ mv.2 < 0 then
          let clampX := max 0 (min domainWidth mv.1)
          (((⟨currentX, currentY⟩ : RayPoint) ::
            [⟨clampX, getCoastlineY coastline clampX⟩]), mv.1)
        else
          let rest := traceGo gridX gridY domainWidth domainHeight
            dxPhys dyPhys stepSize grid coastline features fuel mv.1 mv.2
          ((⟨currentX, currentY⟩ : RayPoint) :: rest.1, rest.2)

/-- `traceRayFromDeep(startIndex)` (lines 197-277). -/
def traceRayFromDeep (gridX gridY : ℕ) (domainWidth domainHeight : ℝ)
    (grid : Grid) (coastline : List CoastlinePoint)
    (features : List CoastalFeature) (startIndex : ℕ) : List RayPoint :=
  let dxPhys := domainWidth / ((gridX : ℝ) - 1)
  let dyPhys := domainHeight / ((gridY : ℝ) - 1)
  let topPoint := grid (gridY - 1) startIndex
  if topPoint.h ≤ 0.05 then []
  else
    let stepSize := dyPhys * 0.85
    let maxSteps := gridY * 3
    let res := traceGo gridX gridY domainWidth domainHeight dxPhys dyPhys
      stepSize grid coastline features maxSteps topPoint.x topPoint.y
    if res.1.length < 2 then
      res.1 ++ [⟨res.2, getCoastlineY coastline res.2⟩]
    else res.1

/-- The counterexample grid for the ray tracer: uniformly deep water
(`h = 20`), wave angle `arccos(1/6)` everywhere (a strongly oblique but
admissible angle, as the analytic solver's forced angles approach
`±(π/2 - 0.01)`). -/
def cexRayGrid : Grid :=
  fun _ _ => ⟨0, 100, 20, 1, 1, Real.arccos (1 / 6)⟩

/-! ### Hyperbolic inequalities used to analyse the Newton iteration -/

lemma tanh_eq (x : ℝ) : Real.tanh x = Real.sinh x / Real.cosh x :=
  Real.tanh_eq_sinh_div_cosh x

lemma tanh_nonneg_of_nonneg {x : ℝ} (hx : 0 ≤ x) : 0 ≤ Real.tanh x := by
  rw [tanh_eq]
  exact div_nonneg (Real.sinh_nonneg_iff.2 hx) (Real.cosh_pos x).le

lemma tanh_pos_of_pos {x : ℝ} (hx : 0 < x) : 0 < Real.tanh x := by
  rw [tanh_eq]
  exact div_pos (Real.sinh_pos_iff.2 hx) (Real.cosh_pos x)

lemma tanh_lt_one (x : ℝ) : Real.tanh x < 1 := by
  rw [tanh_eq, div_lt_one (Real.cosh_pos x)]
  have h := Real.cosh_sub_sinh x
  nlinarith [Real.exp_pos (-x)]

lemma abs_tanh_lt_one (x : ℝ) : |Real.tanh x| < 1 := by
  rcases le_total 0 x with hx | hx
  · rw [abs_of_nonneg (tanh_nonneg_of_nonneg hx)]; exact tanh_lt_one x
  · have : Real.tanh x ≤ 0 := by
      rw [tanh_eq]
      exact div_nonpos_of_nonpos_of_nonneg (Real.sinh_nonpos_iff.2 hx)
        (Real.cosh_pos x).le
    rw [abs_of_nonpos this, ← Real.tanh_neg]
    exact tanh_lt_one (-x)

/-- `sinh x ≤ x · cosh x` for `x ≥ 0` (hence `tanh x ≤ x`). -/
lemma sinh_le_mul_cosh {x : ℝ} (hx : 0 ≤ x) : Real.sinh x ≤ x * Real.cosh x := by
  have key : ∀ y : ℝ, HasDerivAt (fun t => t * Real.cosh t - Real.sinh t)
      (y * Real.sinh y) y := by
    intro y
    have h1 : HasDerivAt (fun t : ℝ => t * Real.cosh t)
        (1 * Real.cosh y + y * Real.sinh y) y :=
      (hasDerivAt_id y).mul (Real.hasDerivAt_cosh y)
    have h2 := h1.sub (Real.hasDerivAt_sinh y)
    convert h2 using 1
    ring
  have mono : Monotone (fun t => t * Real.cosh t - Real.sinh t) := by
    apply monotone_of_deriv_nonneg
    · exact fun y => (key y).differentiableAt
    · intro y
      rw [(key y).deriv]
      rcases le_total 0 y with hy | hy
      · exact mul_nonneg hy (Real.sinh_nonneg_iff.2 hy)
      · nlinarith [mul_nonneg (neg_nonneg.2 hy)
          (neg_nonneg.2 (Real.sinh_nonpos_iff.2 hy))]
  have h0 := mono hx
  simp only [Real.cosh_zero, Real.sinh_zero, mul_one, zero_mul, sub_zero] at h0
  linarith [h0]

lemma tanh_le_self {x : ℝ} (hx : 0 ≤ x) : Real.tanh x ≤ x := by
  rw [tanh_eq, div_le_iff₀ (Real.cosh_pos x)]
  exact sinh_le_mul_cosh hx

lemma abs_sinh_le_mul_cosh (x : ℝ) : |Real.sinh x| ≤ |x| * Real.cosh x := by
  rcases le_total 0 x with hx | hx
  · rw [abs_of_nonneg (Real.sinh_nonneg_iff.2 hx), abs_of_nonneg hx]
    exact sinh_le_mul_cosh hx
  · rw [abs_of_nonpos (Real.sinh_nonpos_iff.2 hx), abs_of_nonpos hx]
    have := sinh_le_mul_cosh (neg_nonneg.2 hx)
    rw [Real.sinh_neg, Real.cosh_neg] at this
    linarith [this]

lemma abs_tanh_le_abs (x : ℝ) : |Real.tanh x| ≤ |x| := by
  rw [tanh_eq, abs_div, abs_of_pos (Real.cosh_pos x),
    div_le_iff₀ (Real.cosh_pos x)]
  exact abs_sinh_le_mul_cosh x

/-- `x - x³/3 ≤ tanh x` for `x ≥ 0`. -/
lemma sub_cube_le_tanh {x : ℝ} (hx : 0 ≤ x) :
    x - x ^ 3 / 3 ≤ Real.tanh x := by
  have key : ∀ y : ℝ, HasDerivAt
      (fun t => Real.sinh t - (t - t ^ 3 / 3) * Real.cosh t)
      (y ^ 2 * Real.cosh y - y * Real.sinh y + y ^ 3 / 3 * Real.sinh y) y := by
    intro y
    have h1 : HasDerivAt (fun t : ℝ => t - t ^ 3 / 3) (1 - y ^ 2) y := by
      have := ((hasDerivAt_pow 3 y).div_const 3)
      have h2 := (hasDerivAt_id y).sub this
      convert h2 using 1
      push_cast
      ring
    have h3 : HasDerivAt (fun t : ℝ => (t - t ^ 3 / 3) * Real.cosh t)
        ((1 - y ^ 2) * Real.cosh y + (y - y ^ 3 / 3) * Real.sinh y) y :=
      h1.mul (Real.hasDerivAt_cosh y)
    have h4 := (Real.hasDerivAt_sinh y).sub h3
    convert h4 using 1
    ring
  have mono : Monotone
      (fun t => Real.sinh t - (t - t ^ 3 / 3) * Real.cosh t) := by
    apply monotone_of_deriv_nonneg
    · exact fun y => (key y).differentiableAt
    · intro y
      rw [(key y).deriv]
      have h1 : y * Real.sinh y ≤ y ^ 2 * Real.cosh y := by
        calc y * Real.sinh y ≤ |y * Real.sinh y| := le_abs_self _
        _ = |y| * |Real.sinh y| := abs_mul _ _
        _ ≤ |y| * (|y| * Real.cosh y) := by
            exact mul_le_mul_of_nonneg_left (abs_sinh_le_mul_cosh y) (abs_nonneg y)
        _ = y ^ 2 * Real.cosh y := by
            rw [← mul_assoc, ← abs_mul, abs_mul_self]
            ring
      have h2 : 0 ≤ y ^ 3 / 3 * Real.sinh y := by
        rcases le_total 0 y with hy | hy
        · exact mul_nonneg (by positivity) (Real.sinh_nonneg_iff.2 hy)
        · have hy3 : y ^ 3 / 3 ≤ 0 := by nlinarith [sq_nonneg y]
          nlinarith [mul_nonneg (neg_nonneg.2 hy3)
            (neg_nonneg.2 (Real.sinh_nonpos_iff.2 hy))]
      linarith
  have h0 := mono hx
  simp only [Real.sinh_zero, Real.cosh_zero] at h0
  norm_num at h0
  have hc := Real.cosh_pos x
  rw [tanh_eq, le_div_iff₀ hc]
  nlinarith [h0]

lemma sech2_pos (x : ℝ) : 0 < sech2 x := by
  unfold sech2
  positivity

lemma sech2_le_one (x : ℝ) : sech2 x ≤ 1 := by
  unfold sech2
  rw [div_le_one (by positivity)]
  nlinarith [Real.one_le_cosh x]

/-- `sech²x = 1 - tanh²x`. -/
lemma sech2_eq_one_sub_tanh_sq (x : ℝ) :
    sech2 x = 1 - Real.tanh x ^ 2 := by
  unfold sech2
  rw [tanh_eq, div_pow]
  have hc := (Real.cosh_pos x).ne'
  have := Real.cosh_sq_sub_sinh_sq x
  field_simp
  nlinarith [this]

lemma one_sub_sq_le_sech2 (x : ℝ) : 1 - x ^ 2 ≤ sech2 x := by
  rw [sech2_eq_one_sub_tanh_sq]
  have h := abs_tanh_le_abs x
  have : Real.tanh x ^ 2 ≤ x ^ 2 := by
    rw [← sq_abs (Real.tanh x), ← sq_abs x]
    exact pow_le_pow_left (abs_nonneg _) h 2
  linarith

/-- `|x| · sech²x ≤ 1/2`. -/
lemma abs_mul_sech2_le_half (x : ℝ) : |x| * sech2 x ≤ 1 / 2 := by
  unfold sech2
  have hc : (1 : ℝ) + x ^ 2 ≤ Real.cosh x * Real.cosh x := by
    have h1 : |x| ≤ Real.sinh |x| := by
      rcases eq_or_lt_of_le (abs_nonneg x) with h | h
      · rw [← h]; simp
      · exact (Real.self_lt_sinh_iff.2 h).le
    have h2 : Real.sinh |x| * Real.sinh |x| ≥ |x| * |x| := by
      have := Real.sinh_nonneg_iff.2 (abs_nonneg x)
      nlinarith [mul_self_le_mul_self (abs_nonneg x) h1]
    have h3 : Real.cosh x * Real.cosh x = 1 + Real.sinh x * Real.sinh x := by
      have := Real.cosh_sq_sub_sinh_sq x
      nlinarith
    have h4 : Real.sinh x * Real.sinh x = Real.sinh |x| * Real.sinh |x| := by
      rcases le_total 0 x with hx | hx
      · rw [abs_of_nonneg hx]
      · rw [abs_of_nonpos hx, Real.sinh_neg]; ring
    have h5 : |x| * |x| = x ^ 2 := by rw [← sq_abs x]; ring
    nlinarith
  have hpos : 0 < Real.cosh x * Real.cosh x := by positivity
  rw [mul_div_assoc', mul_one, div_le_div_iff hpos (by norm_num : (0:ℝ) < 2)]
  nlinarith [sq_nonneg (|x| - 1), sq_abs x, abs_nonneg x]

/-! ### Newton-step analysis -/

lemma dispDF_pos {h k : ℝ} (hh : 0 < h) (hk : 0 < k) : 0 < dispDF h k := by
  unfold dispDF GRAVITY
  have h1 := tanh_pos_of_pos (mul_pos hk hh)
  have h2 := sech2_pos (k * h)
  have h3 : 0 < k * h * sech2 (k * h) := by positivity
  nlinarith

/-- The Newton update written as a single quotient: for `h, k > 0`,
`k_new = (g·k²·h·sech²(kh) + σ²) / f'(k)`. -/
lemma newtonStep_eq {h k : ℝ} (σ2 : ℝ) (hh : 0 < h) (hk : 0 < k) :
    newtonStep h σ2 k =
      (GRAVITY * k ^ 2 * h * sech2 (k * h) + σ2) / dispDF h k := by
  have hdf := (dispDF_pos hh hk).ne'
  unfold newtonStep dispF
  rw [eq_div_iff hdf, sub_mul, div_mul_cancel₀ _ hdf]
  unfold dispDF
  ring

lemma newtonStep_pos {h σ2 k : ℝ} (hh : 0 < h) (hσ : 0 < σ2) (hk : 0 < k) :
    0 < newtonStep h σ2 k := by
  rw [newtonStep_eq σ2 hh hk]
  have h1 := sech2_pos (k * h)
  have h2 : (0:ℝ) < GRAVITY := by unfold GRAVITY; norm_num
  exact div_pos (by positivity) (dispDF_pos hh hk)

lemma solveGo_zero (h σ2 k : ℝ) : solveGo h σ2 0 k = k := rfl

lemma solveGo_succ (h σ2 : ℝ) (n : ℕ) (k : ℝ) :
    solveGo h σ2 (n + 1) k =
      if |newtonStep h σ2 k - k| < TOLERANCE then newtonStep h σ2 k
      else solveGo h σ2 n (newtonStep h σ2 k) := rfl

lemma solveGo_pos {h σ2 : ℝ} (hh : 0 < h) (hσ : 0 < σ2) :
    ∀ (n : ℕ) (k : ℝ), 0 < k → 0 < solveGo h σ2 n k := by
  intro n
  induction n with
  | zero => intro k hk; simpa [solveGo_zero] using hk
  | succ m ih =>
      intro k hk
      have hstep := newtonStep_pos hh hσ hk
      rw [solveGo_succ]
      split
      · exact hstep
      · exact ih _ hstep

lemma solveWaveNumber_pos {h T : ℝ} (hh : 0 < h) (hT : 0 < T) :
    0 < solveWaveNumber h T := by
  unfold solveWaveNumber
  have hσ : 0 < 2 * π / T := by positivity
  have hσ2 : 0 < 2 * π / T * (2 * π / T) := by positivity
  have hg : (0:ℝ) < GRAVITY := by unfold GRAVITY; norm_num
  exact solveGo_pos hh hσ2 _ _ (by positivity)

/-! #### Derivatives of the dispersion function -/

lemma hasDerivAt_tanh (x : ℝ) : HasDerivAt Real.tanh (sech2 x) x := by
  have h := (Real.hasDerivAt_sinh x).div (Real.hasDerivAt_cosh x)
    (Real.cosh_pos x).ne'
  have heq : Real.tanh = fun y => Real.sinh y / Real.cosh y :=
    funext tanh_eq
  rw [heq]
  convert h using 1
  have h1 : Real.cosh x * Real.cosh x - Real.sinh x * Real.sinh x = 1 := by
    nlinarith [Real.cosh_sq_sub_sinh_sq x]
  rw [h1]
  unfold sech2
  rw [sq]

lemma hasDerivAt_tanh_comp (h k : ℝ) :
    HasDerivAt (fun x => Real.tanh (x * h)) (sech2 (k * h) * h) k := by
  have hl : HasDerivAt (fun x : ℝ => x * h) h k := by
    simpa using (hasDerivAt_id k).mul_const h
  have := (hasDerivAt_tanh (k * h)).comp k hl
  simpa [Function.comp] using this

lemma hasDerivAt_dispF (h σ2 k : ℝ) :
    HasDerivAt (dispF h σ2) (dispDF h k) k := by
  have h1 : HasDerivAt (fun x : ℝ => GRAVITY * x) GRAVITY k := by
    simpa using (hasDerivAt_id k).const_mul GRAVITY
  have h2 := h1.mul (hasDerivAt_tanh_comp h k)
  have h3 := h2.sub_const σ2
  have heq : dispF h σ2 = fun x => GRAVITY * x * Real.tanh (x * h) - σ2 := rfl
  rw [heq]
  convert h3 using 1
  unfold dispDF
  ring

lemma abs_dispDF_le (h k : ℝ) : |dispDF h k| ≤ 3 / 2 * GRAVITY := by
  unfold dispDF
  have hg : (0:ℝ) < GRAVITY := by unfold GRAVITY; norm_num
  have h1 : |GRAVITY * Real.tanh (k * h)| ≤ GRAVITY := by
    rw [abs_mul, abs_of_pos hg]
    nlinarith [abs_tanh_lt_one (k * h), abs_nonneg (Real.tanh (k * h))]
  have h2 : |GRAVITY * k * h * sech2 (k * h)| ≤ GRAVITY * (1 / 2) := by
    have := abs_mul_sech2_le_half (k * h)
    have hs := sech2_pos (k * h)
    calc |GRAVITY * k * h * sech2 (k * h)|
        = GRAVITY * (|k * h| * sech2 (k * h)) := by
          rw [abs_mul, abs_mul, abs_mul, abs_of_pos hg, abs_of_pos hs,
            abs_mul k h]
          ring
      _ ≤ GRAVITY * (1 / 2) := by
          exact mul_le_mul_of_nonneg_left this hg.le
  calc |GRAVITY * Real.tanh (k * h) + GRAVITY * k * h * sech2 (k * h)|
      ≤ |GRAVITY * Real.tanh (k * h)| + |GRAVITY * k * h * sech2 (k * h)| :=
        abs_add _ _
    _ ≤ GRAVITY + GRAVITY * (1 / 2) := add_le_add h1 h2
    _ = 3 / 2 * GRAVITY := by ring

lemma hasDerivAt_sech2 (x : ℝ) :
    HasDerivAt sech2 (-(2 * Real.sinh x * Real.cosh x) /
      (Real.cosh x * Real.cosh x) ^ 2) x := by
  have hc := (Real.cosh_pos x)
  have h1 : HasDerivAt (fun y => Real.cosh y * Real.cosh y)
      (Real.sinh x * Real.cosh x + Real.cosh x * Real.sinh x) x :=
    (Real.hasDerivAt_cosh x).mul (Real.hasDerivAt_cosh x)
  have h2 := (hasDerivAt_const x (1:ℝ)).div h1 (by positivity)
  have heq : sech2 = fun y => 1 / (Real.cosh y * Real.cosh y) := rfl
  rw [heq]
  convert h2 using 1
  ring

lemma hasDerivAt_dispDF (h k : ℝ) :
    HasDerivAt (dispDF h) (dispDF2 h k) k := by
  have h1 := (hasDerivAt_tanh_comp h k).const_mul GRAVITY
  have h2 : HasDerivAt (fun x : ℝ => GRAVITY * x * h) (GRAVITY * h) k := by
    have := ((hasDerivAt_id k).const_mul GRAVITY).mul_const h
    simpa using this
  have hl : HasDerivAt (fun x : ℝ => x * h) h k := by
    simpa using (hasDerivAt_id k).mul_const h
  have h3 : HasDerivAt (fun x => sech2 (x * h))
      (-(2 * Real.sinh (k * h) * Real.cosh (k * h)) /
        (Real.cosh (k * h) * Real.cosh (k * h)) ^ 2 * h) k := by
    have := (hasDerivAt_sech2 (k * h)).comp k hl
    simpa [Function.comp] using this
  have h4 := h2.mul h3
  have h5 := h1.add h4
  have heq : dispDF h =
      fun x => GRAVITY * Real.tanh (x * h) + GRAVITY * x * h * sech2 (x * h) :=
    rfl
  rw [heq]
  convert h5 using 1
  unfold dispDF2 sech2
  have hc := (Real.cosh_pos (k * h)).ne'
  rw [tanh_eq]
  field_simp
  ring

lemma abs_dispDF2_le {h : ℝ} (hh : 0 ≤ h) (k : ℝ) :
    |dispDF2 h k| ≤ 3 * GRAVITY * h := by
  unfold dispDF2
  have hg : (0:ℝ) < GRAVITY := by unfold GRAVITY; norm_num
  have hs := sech2_pos (k * h)
  have hs1 := sech2_le_one (k * h)
  have htu : 0 ≤ k * h * Real.tanh (k * h) := by
    rcases le_total 0 (k * h) with hu | hu
    · exact mul_nonneg hu (tanh_nonneg_of_nonneg hu)
    · have ht : Real.tanh (k * h) ≤ 0 := by
        rw [tanh_eq]
        exact div_nonpos_of_nonpos_of_nonneg (Real.sinh_nonpos_iff.2 hu)
          (Real.cosh_pos _).le
      nlinarith
  have hbig : sech2 (k * h) * (k * h * Real.tanh (k * h)) ≤ 1 / 2 := by
    have h1 : k * h * Real.tanh (k * h) ≤ |k * h| := by
      calc k * h * Real.tanh (k * h) ≤ |k * h * Real.tanh (k * h)| := le_abs_self _
        _ = |k * h| * |Real.tanh (k * h)| := abs_mul _ _
        _ ≤ |k * h| * 1 := by
            exact mul_le_mul_of_nonneg_left (abs_tanh_lt_one _).le (abs_nonneg _)
        _ = |k * h| := mul_one _
    have h2 := abs_mul_sech2_le_half (k * h)
    nlinarith
  have habs : |sech2 (k * h) * (1 - k * h * Real.tanh (k * h))| ≤ 3 / 2 := by
    rw [abs_mul, abs_of_pos hs]
    rcases le_total (k * h * Real.tanh (k * h)) 1 with hc | hc
    · rw [abs_of_nonneg (by linarith)]
      nlinarith
    · rw [abs_of_nonpos (by linarith)]
      nlinarith
  calc |2 * GRAVITY * h * sech2 (k * h) * (1 - k * h * Real.tanh (k * h))|
      = 2 * GRAVITY * h * |sech2 (k * h) * (1 - k * h * Real.tanh (k * h))| := by
        rw [mul_assoc, abs_mul]
        congr 1
        rw [abs_of_nonneg (by positivity)]
    _ ≤ 2 * GRAVITY * h * (3 / 2) := by
        exact mul_le_mul_of_nonneg_left habs (by positivity)
    _ = 3 * GRAVITY * h := by ring

/-! #### Mean-value helpers -/

lemma abs_image_sub_le (F Fd : ℝ → ℝ) (C : ℝ)
    (hF : ∀ x, HasDerivAt F (Fd x) x) (hC : ∀ x, |Fd x| ≤ C)
    (a b : ℝ) : |F b - F a| ≤ C * |b - a| := by
  have key : ∀ u v : ℝ, u < v → |F v - F u| ≤ C * |v - u| := by
    intro u v huv
    obtain ⟨c, _, hceq⟩ := exists_hasDerivAt_eq_slope F Fd huv
      (fun x _ => (hF x).continuousAt.continuousWithinAt)
      (fun x _ => hF x)
    have hne : v - u ≠ 0 := sub_ne_zero.2 huv.ne'
    have heq : F v - F u = Fd c * (v - u) := by
      rw [eq_div_iff hne] at hceq
      linarith [hceq]
    rw [heq, abs_mul]
    exact mul_le_mul (hC c) le_rfl (abs_nonneg _) ((abs_nonneg _).trans (hC c))
  rcases lt_trichotomy a b with hab | hab | hab
  · exact key a b hab
  · simp [hab]
  · calc |F b - F a| = |F a - F b| := abs_sub_comm _ _
      _ ≤ C * |a - b| := key b a hab
      _ = C * |b - a| := by rw [abs_sub_comm]

lemma abs_taylor1_le (F Fd : ℝ → ℝ) (L : ℝ) (hL0 : 0 ≤ L)
    (hF : ∀ x, HasDerivAt F (Fd x) x)
    (hL : ∀ x y, |Fd x - Fd y| ≤ L * |x - y|)
    (a b : ℝ) : |F b - F a - Fd a * (b - a)| ≤ L * (b - a) ^ 2 := by
  have hG : ∀ x, HasDerivAt (fun y => F y - Fd a * y) (Fd x - Fd a) x := by
    intro x
    have h1 : HasDerivAt (fun y : ℝ => Fd a * y) (Fd a) x := by
      simpa using (hasDerivAt_id x).const_mul (Fd a)
    exact (hF x).sub h1
  rcases lt_trichotomy a b with hab | hab | hab
  · obtain ⟨c, hc, hceq⟩ := exists_hasDerivAt_eq_slope
      (fun y => F y - Fd a * y) (fun x => Fd x - Fd a) hab
      (fun x _ => (hG x).continuousAt.continuousWithinAt)
      (fun x _ => hG x)
    have hne : b - a ≠ 0 := sub_ne_zero.2 hab.ne'
    rw [eq_div_iff hne] at hceq
    have heq : F b - F a - Fd a * (b - a) = (Fd c - Fd a) * (b - a) := by
      linear_combination -hceq
    rw [heq, abs_mul]
    have h1 : |Fd c - Fd a| ≤ L * (b - a) := by
      refine (hL c a).trans ?_
      have : |c - a| ≤ b - a := by
        rw [abs_of_pos (sub_pos.2 hc.1)]
        linarith [hc.2]
      nlinarith
    have h2 : |b - a| = b - a := abs_of_pos (sub_pos.2 hab)
    rw [h2]
    calc |Fd c - Fd a| * (b - a) ≤ L * (b - a) * (b - a) :=
          mul_le_mul_of_nonneg_right h1 (by linarith)
      _ = L * (b - a) ^ 2 := by ring
  · subst hab
    simp
  · obtain ⟨c, hc, hceq⟩ := exists_hasDerivAt_eq_slope
      (fun y => F y - Fd a * y) (fun x => Fd x - Fd a) hab
      (fun x _ => (hG x).continuousAt.continuousWithinAt)
      (fun x _ => hG x)
    have hne : a - b ≠ 0 := sub_ne_zero.2 hab.ne'
    rw [eq_div_iff hne] at hceq
    have heq : F b - F a - Fd a * (b - a) = (Fd a - Fd c) * (a - b) := by
      linear_combination hceq
    rw [heq, abs_mul]
    have h1 : |Fd a - Fd c| ≤ L * (a - b) := by
      refine (hL a c).trans ?_
      have : |a - c| ≤ a - b := by
        rw [abs_of_pos (sub_pos.2 hc.2)]
        linarith [hc.1]
      nlinarith
    have h2 : |a - b| = a - b := abs_of_pos (sub_pos.2 hab)
    rw [h2]
    calc |Fd a - Fd c| * (a - b) ≤ L * (a - b) * (a - b) :=
          mul_le_mul_of_nonneg_right h1 (by linarith)
      _ = L * (b - a) ^ 2 := by ring

/-! #### Residual bounds at a stopping point of the Newton loop -/

/-- The Newton update satisfies `f(k) = -f'(k)·(k_new - k)` exactly. -/
lemma dispF_eq_neg_dispDF_mul {h k : ℝ} (σ2 : ℝ) (hh : 0 < h) (hk : 0 < k) :
    dispF h σ2 k = -(dispDF h k * (newtonStep h σ2 k - k)) := by
  have hdf := (dispDF_pos hh hk).ne'
  unfold newtonStep
  field_simp
  ring

/-- When the stopping criterion examines a positive iterate `k`, the residual
at the returned value `k_new` is at most `3·g·|k_new - k|`. -/
lemma residual_le_linear {h σ2 k : ℝ} (hh : 0 < h) (hk : 0 < k) :
    |dispF h σ2 (newtonStep h σ2 k)| ≤
      3 * GRAVITY * |newtonStep h σ2 k - k| := by
  set kn := newtonStep h σ2 k with hkn
  have hFk : |dispF h σ2 k| ≤ 3 / 2 * GRAVITY * |kn - k| := by
    rw [dispF_eq_neg_dispDF_mul σ2 hh hk, abs_neg, abs_mul, ← hkn]
    exact mul_le_mul_of_nonneg_right (abs_dispDF_le h k) (abs_nonneg _)
  have hlip := abs_image_sub_le (dispF h σ2) (dispDF h) (3 / 2 * GRAVITY)
    (fun x => hasDerivAt_dispF h σ2 x) (fun x => abs_dispDF_le h x) k kn
  have htri : |dispF h σ2 kn| ≤
      |dispF h σ2 kn - dispF h σ2 k| + |dispF h σ2 k| := by
    calc |dispF h σ2 kn| = |dispF h σ2 kn - dispF h σ2 k + dispF h σ2 k| := by
          ring_nf
      _ ≤ |dispF h σ2 kn - dispF h σ2 k| + |dispF h σ2 k| := abs_add _ _
  calc |dispF h σ2 kn|
      ≤ |dispF h σ2 kn - dispF h σ2 k| + |dispF h σ2 k| := htri
    _ ≤ 3 / 2 * GRAVITY * |kn - k| + 3 / 2 * GRAVITY * |kn - k| :=
        add_le_add hlip hFk
    _ = 3 * GRAVITY * |kn - k| := by ring

lemma dispDF_lipschitz {h : ℝ} (hh : 0 ≤ h) (x y : ℝ) :
    |dispDF h x - dispDF h y| ≤ 3 * GRAVITY * h * |x - y| :=
  abs_image_sub_le (dispDF h) (dispDF2 h) (3 * GRAVITY * h)
    (fun z => hasDerivAt_dispDF h z) (fun z => abs_dispDF2_le hh z) y x

/-- Quadratic residual bound: `|f(k_new)| ≤ 3·g·h·(k_new - k)²`. -/
lemma residual_le_quadratic {h σ2 k : ℝ} (hh : 0 < h) (hk : 0 < k) :
    |dispF h σ2 (newtonStep h σ2 k)| ≤
      3 * GRAVITY * h * (newtonStep h σ2 k - k) ^ 2 := by
  have hg : (0:ℝ) < GRAVITY := by unfold GRAVITY; norm_num
  have htay := abs_taylor1_le (dispF h σ2) (dispDF h) (3 * GRAVITY * h)
    (by nlinarith) (fun x => hasDerivAt_dispF h σ2 x)
    (fun x y => dispDF_lipschitz hh.le x y) k (newtonStep h σ2 k)
  have hzero := dispF_eq_neg_dispDF_mul σ2 hh hk
  have heq : dispF h σ2 (newtonStep h σ2 k) =
      dispF h σ2 (newtonStep h σ2 k) - dispF h σ2 k -
        dispDF h k * (newtonStep h σ2 k - k) := by
    rw [hzero]; ring
  rw [heq]
  exact htay

lemma stopsWithin_zero (h σ2 k : ℝ) : stopsWithin h σ2 0 k ↔ False :=
  Iff.rfl

lemma stopsWithin_succ (h σ2 : ℝ) (n : ℕ) (k : ℝ) :
    stopsWithin h σ2 (n + 1) k ↔
      |newtonStep h σ2 k - k| < TOLERANCE ∨
      (¬ |newtonStep h σ2 k - k| < TOLERANCE ∧
        stopsWithin h σ2 n (newtonStep h σ2 k)) :=
  Iff.rfl

/-- If the stopping criterion fires, the loop's return value is `newtonStep`
of some positive iterate whose update was below the tolerance. -/
lemma solveGo_of_stopsWithin {h σ2 : ℝ} (hh : 0 < h) (hσ : 0 < σ2) :
    ∀ (n : ℕ) (k : ℝ), 0 < k → stopsWithin h σ2 n k →
      ∃ ks, 0 < ks ∧ |newtonStep h σ2 ks - ks| < TOLERANCE ∧
        solveGo h σ2 n k = newtonStep h σ2 ks := by
  intro n
  induction n with
  | zero => intro k hk hs; exact absurd ((stopsWithin_zero h σ2 k).1 hs) id
  | succ m ih =>
      intro k hk hs
      rw [solveGo_succ]
      rcases (stopsWithin_succ h σ2 m k).1 hs with hstop | ⟨hnot, hrec⟩
      · exact ⟨k, hk, hstop, by rw [if_pos hstop]⟩
      · rw [if_neg hnot]
        exact ih _ (newtonStep_pos hh hσ hk) hrec

/-! ### Claim C1 (amended part): residual bound when the iteration converges -/

/-- **C1 (amended).**  For every depth `h > 0` and period `T > 0` such that
the Newton loop's stopping criterion `|Δk| < 1e-6` fires within the cap of
100 iterations, the wavenumber returned by `solveWaveNumber` (the Newton
iteration on `f(k) = g·k·tanh(k·h) - σ²` started from the deep-water guess
`k₀ = σ²/g`) satisfies `|g·k·tanh(k·h) - (2π/T)²| < 1e-4`.  (Without the
convergence hypothesis the bound can fail: see the counterexample.) -/
theorem claim1_amended (h T : ℝ) (hh : 0 < h) (hT : 0 < T)
    (hconv : stopsWithin h ((2 * π / T) * (2 * π / T)) MAX_ITERATIONS
      ((2 * π / T) * (2 * π / T) / GRAVITY)) :
    |GRAVITY * solveWaveNumber h T *
        Real.tanh (solveWaveNumber h T * h) - (2 * π / T) ^ 2| < 1e-4 := by
  have hσ2 : 0 < (2 * π / T) * (2 * π / T) := by positivity
  have hg : (0:ℝ) < GRAVITY := by unfold GRAVITY; norm_num
  obtain ⟨ks, hks, hstop, heq⟩ :=
    solveGo_of_stopsWithin hh hσ2 MAX_ITERATIONS _ (by positivity) hconv
  have hsw : solveWaveNumber h T = newtonStep h ((2 * π / T) * (2 * π / T)) ks :=
    heq
  have hres := @residual_le_linear _ ((2 * π / T) * (2 * π / T)) _ hh hks
  have hgoal : |dispF h ((2 * π / T) * (2 * π / T))
      (newtonStep h ((2 * π / T) * (2 * π / T)) ks)| < 1e-4 := by
    have hT1 : (3:ℝ) * GRAVITY *
        |newtonStep h ((2 * π / T) * (2 * π / T)) ks - ks| <
        3 * GRAVITY * TOLERANCE := by
      have := abs_nonneg (newtonStep h ((2 * π / T) * (2 * π / T)) ks - ks)
      nlinarith [hstop]
    have hT2 : (3:ℝ) * GRAVITY * TOLERANCE < 1e-4 := by
      unfold GRAVITY TOLERANCE
      norm_num
    linarith [hres]
  rw [hsw, pow_two]
  exact hgoal

/-! Auxiliary exponential estimates (used to certify a concrete
convergent input for the residual theorem). -/

lemma one_sub_tanh_le (x : ℝ) : 1 - Real.tanh x ≤ 2 * Real.exp (-(2 * x)) := by
  have hc := Real.cosh_pos x
  have h1 : 1 - Real.tanh x = Real.exp (-x) / Real.cosh x := by
    have h0 : (1 - Real.sinh x / Real.cosh x) * Real.cosh x
        = Real.cosh x - Real.sinh x := by field_simp
    rw [tanh_eq, eq_div_iff hc.ne', h0, Real.cosh_sub_sinh]
  rw [h1, div_le_iff₀ hc]
  have h2 : Real.exp x / 2 ≤ Real.cosh x := by
    rw [Real.cosh_eq]
    nlinarith [Real.exp_pos (-x)]
  have hxx : Real.exp (-(2 * x)) * Real.exp x = Real.exp (-x) := by
    rw [← Real.exp_add]
    ring_nf
  nlinarith [Real.exp_pos (-(2 * x)), Real.exp_pos x]

lemma sq_div_four_le_exp {x : ℝ} (hx : 0 ≤ x) : x ^ 2 / 4 ≤ Real.exp x := by
  have h := Real.add_one_le_exp (x / 2)
  have h2 : Real.exp (x / 2) * Real.exp (x / 2) = Real.exp x := by
    rw [← Real.exp_add]
    ring_nf
  nlinarith [Real.exp_pos (x / 2),
    mul_self_le_mul_self (by linarith : (0:ℝ) ≤ x / 2 + 1) h]

lemma exp_neg_le_four_div_sq {x : ℝ} (hx : 0 < x) :
    Real.exp (-x) ≤ 4 / x ^ 2 := by
  have h1 := sq_div_four_le_exp hx.le
  have h2 : Real.exp (-x) = 1 / Real.exp x := by
    rw [Real.exp_neg, one_div]
  rw [h2, div_le_div_iff (Real.exp_pos x) (by positivity)]
  nlinarith [Real.exp_pos x]

/-- Witness for `claim1_amended`: at `h = 10⁶` m, `T = 2π` s the very first
Newton update is below the tolerance (deep-water regime), so the hypotheses
are satisfiable and the residual bound holds there. -/
theorem claim1_amended_witness :
    (0:ℝ) < 10 ^ 6 ∧ (0:ℝ) < 2 * π ∧
    stopsWithin (10 ^ 6) ((2 * π / (2 * π)) * (2 * π / (2 * π)))
      MAX_ITERATIONS ((2 * π / (2 * π)) * (2 * π / (2 * π)) / GRAVITY) ∧
    |GRAVITY * solveWaveNumber (10 ^ 6) (2 * π) *
        Real.tanh (solveWaveNumber (10 ^ 6) (2 * π) * 10 ^ 6) -
      (2 * π / (2 * π)) ^ 2| < 1e-4 := by
  have hpi := Real.pi_pos
  have hone : 2 * π / (2 * π) = 1 := div_self (by positivity)
  have hg : (0:ℝ) < GRAVITY := by unfold GRAVITY; norm_num
  have hk0 : (0:ℝ) < 1 / GRAVITY := by positivity
  have hh6 : (0:ℝ) < 10 ^ 6 := by norm_num
  have hdfpos := @dispDF_pos (10 ^ 6) (1 / GRAVITY) hh6 hk0
  set u0 : ℝ := 1 / GRAVITY * 10 ^ 6 with hu0
  have hu0pos : 0 < u0 := by rw [hu0]; positivity
  have hu0big : (10:ℝ) ^ 5 ≤ u0 := by
    rw [hu0]; unfold GRAVITY; norm_num
  have hu0sq : (10:ℝ) ^ 10 ≤ u0 ^ 2 := by nlinarith
  have hexp : Real.exp (-(2 * u0)) ≤ 1 / u0 ^ 2 := by
    have h4 := @exp_neg_le_four_div_sq (2 * u0) (by positivity)
    calc Real.exp (-(2 * u0)) ≤ 4 / (2 * u0) ^ 2 := h4
      _ = 1 / u0 ^ 2 := by ring
  have htanh2 : 1 - Real.tanh u0 ≤ 2 / u0 ^ 2 := by
    calc 1 - Real.tanh u0 ≤ 2 * Real.exp (-(2 * u0)) := one_sub_tanh_le u0
      _ ≤ 2 * (1 / u0 ^ 2) := by nlinarith
      _ = 2 / u0 ^ 2 := by ring
  have hsmall : 2 / u0 ^ 2 ≤ 2 / 10 ^ 10 := by
    rw [div_le_div_iff (by positivity) (by norm_num)]
    nlinarith
  have htanh_half : (1:ℝ) / 2 ≤ Real.tanh u0 := by
    have hnum : (2:ℝ) / 10 ^ 10 ≤ 1 / 2 := by norm_num
    linarith
  have hdispF : dispF (10 ^ 6) 1 (1 / GRAVITY) = Real.tanh u0 - 1 := by
    unfold dispF
    rw [← hu0]
    have hg1 : GRAVITY * (1 / GRAVITY) = 1 := by field_simp
    rw [hg1, one_mul]
  have hdf_lb : GRAVITY / 2 ≤ dispDF (10 ^ 6) (1 / GRAVITY) := by
    unfold dispDF
    rw [← hu0]
    have h2 : 0 ≤ GRAVITY * (1 / GRAVITY) * 10 ^ 6 * sech2 u0 := by
      have := sech2_pos u0
      positivity
    nlinarith [htanh_half]
  have hstep : |newtonStep (10 ^ 6) 1 (1 / GRAVITY) - 1 / GRAVITY|
      < TOLERANCE := by
    have hΔ : newtonStep (10 ^ 6) 1 (1 / GRAVITY) - 1 / GRAVITY
        = -(dispF (10 ^ 6) 1 (1 / GRAVITY) / dispDF (10 ^ 6) (1 / GRAVITY)) := by
      unfold newtonStep
      ring
    rw [hΔ, abs_neg, abs_div, abs_of_pos hdfpos, hdispF,
      abs_of_nonpos (by linarith [tanh_lt_one u0]), neg_sub,
      div_lt_iff₀ hdfpos]
    have hT : TOLERANCE = 1 / 1000000 := by unfold TOLERANCE; norm_num
    have hGnum : GRAVITY = 981 / 100 := by unfold GRAVITY; norm_num
    rw [hT]
    linarith [htanh2, hsmall, hdf_lb, hGnum]
  have hstops : stopsWithin (10 ^ 6) ((2 * π / (2 * π)) * (2 * π / (2 * π)))
      MAX_ITERATIONS ((2 * π / (2 * π)) * (2 * π / (2 * π)) / GRAVITY) := by
    rw [hone]
    simp only [one_mul]
    rw [show MAX_ITERATIONS = 99 + 1 from rfl, stopsWithin_succ]
    left
    exact hstep
  exact ⟨hh6, by positivity, hstops,
    claim1_amended (10 ^ 6) (2 * π) hh6 (by positivity) hstops⟩

/-! ### Claim C1 (counterexample part): the iteration cap can be hit, leaving
a huge residual.  In the shallow-water regime each Newton update roughly
halves the iterate, so from the first step's value `≈ 1/(2h)` the loop
cannot descend to the root within 100 iterations when `h` is small and `T`
is large. -/

lemma newton_lower_bound {h σ2 k : ℝ} (hh : 0 < h) (hσ : 0 < σ2) (hk : 0 < k)
    (hu : k * h ≤ 51 / 100) : 9 / 25 * k ≤ newtonStep h σ2 k := by
  rw [newtonStep_eq σ2 hh hk]
  have hg : (0:ℝ) < GRAVITY := by unfold GRAVITY; norm_num
  have hupos : 0 < k * h := mul_pos hk hh
  have hD := dispDF_pos hh hk
  have hDle : dispDF h k ≤ 2 * GRAVITY * (k * h) := by
    unfold dispDF
    have h1 := tanh_le_self hupos.le
    have h2 := sech2_le_one (k * h)
    have h3 := sech2_pos (k * h)
    nlinarith [mul_le_mul_of_nonneg_left h1 hg.le,
      mul_le_mul_of_nonneg_left h2
        (by positivity : (0:ℝ) ≤ GRAVITY * k * h)]
  have hP : 0 < GRAVITY * k ^ 2 * h := by positivity
  have hNum : GRAVITY * k ^ 2 * h * (7399 / 10000 : ℝ) ≤
      GRAVITY * k ^ 2 * h * sech2 (k * h) + σ2 := by
    have h4 := one_sub_sq_le_sech2 (k * h)
    have h5 : (1:ℝ) - (k * h) ^ 2 ≥ 7399 / 10000 := by nlinarith
    nlinarith
  rw [le_div_iff₀ hD]
  calc (9:ℝ) / 25 * k * dispDF h k
      ≤ 9 / 25 * k * (2 * GRAVITY * (k * h)) := by
        exact mul_le_mul_of_nonneg_left hDle (by positivity)
    _ ≤ GRAVITY * k ^ 2 * h * (7399 / 10000 : ℝ) := by nlinarith
    _ ≤ GRAVITY * k ^ 2 * h * sech2 (k * h) + σ2 := hNum

lemma newton_upper_bound {h σ2 k : ℝ} (hh : 0 < h) (hσ : 0 < σ2)
    (hk : 25 / 9 ≤ k) (hu : k * h ≤ 51 / 100)
    (hsm : σ2 ≤ h * GRAVITY / 100) :
    newtonStep h σ2 k ≤ 607 / 1000 * k + 1 / 16 := by
  have hk0 : (0:ℝ) < k := lt_of_lt_of_le (by norm_num) hk
  rw [newtonStep_eq σ2 hh hk0]
  have hg : (0:ℝ) < GRAVITY := by unfold GRAVITY; norm_num
  have hupos : 0 < k * h := mul_pos hk0 hh
  have hD := dispDF_pos hh hk0
  have hDge : GRAVITY * (k * h) * (165 / 100) ≤ dispDF h k := by
    unfold dispDF
    have h1 := sub_cube_le_tanh hupos.le
    have h2 := one_sub_sq_le_sech2 (k * h)
    have h3 : (k * h) ^ 2 ≤ 2601 / 10000 := by nlinarith
    nlinarith [mul_le_mul_of_nonneg_left h1 hg.le,
      mul_pos hg hupos]
  rw [div_le_iff₀ hD]
  have hfac : (0:ℝ) ≤ 607 / 1000 * k + 1 / 16 := by positivity
  have hR := mul_le_mul_of_nonneg_left hDge hfac
  have hNumUB : GRAVITY * k ^ 2 * h * sech2 (k * h) + σ2 ≤
      GRAVITY * k ^ 2 * h + σ2 := by
    have := sech2_le_one (k * h)
    nlinarith [mul_pos (mul_pos hg (pow_pos hk0 2)) hh]
  have hσ2' : σ2 ≤ GRAVITY * (k * h) * (9 / 2500) := by
    have hkh : h * (25 / 9) ≤ k * h := by nlinarith
    nlinarith
  have hkey : GRAVITY * k ^ 2 * h + σ2 ≤
      (607 / 1000 * k + 1 / 16) * (GRAVITY * (k * h) * (165 / 100)) := by
    nlinarith [mul_pos (mul_pos hg (pow_pos hk0 2)) hh, mul_pos hg hupos]
  linarith

/-- Invariant induction over the Newton loop in the stalling regime:
while `k·h ≤ 0.51` and `k` is large, every update shrinks `k` by a factor
in `[9/25, 0.607·k + 1/16]`, never triggers the stopping criterion, and the
iterate therefore stays above `(9/25)ⁿ·k`. -/
lemma solveGo_cex (h σ2 : ℝ) (hh : 0 < h) (hh1 : h ≤ 1) (hσ : 0 < σ2)
    (hsm : σ2 ≤ h * GRAVITY / 100) :
    ∀ (n : ℕ) (k : ℝ), (25 / 9 : ℝ) ^ n ≤ k → k * h ≤ 51 / 100 →
      (9 / 25 : ℝ) ^ n * k ≤ solveGo h σ2 n k ∧
        solveGo h σ2 n k * h ≤ 51 / 100 := by
  intro n
  induction n with
  | zero =>
      intro k h1 h2
      rw [solveGo_zero]
      exact ⟨by norm_num, h2⟩
  | succ m ih =>
      intro k hk hu
      have hk1 : (25 / 9 : ℝ) ≤ k := by
        refine le_trans ?_ hk
        calc (25 / 9 : ℝ) = (25 / 9) ^ 1 := (pow_one _).symm
          _ ≤ (25 / 9) ^ (m + 1) :=
            pow_le_pow_right (by norm_num) (by omega)
      have hk0 : (0:ℝ) < k := lt_of_lt_of_le (by norm_num) hk1
      have hlow := newton_lower_bound hh hσ hk0 hu
      have hupp := newton_upper_bound hh hσ hk1 hu hsm
      have hNpos : 0 < newtonStep h σ2 k :=
        lt_of_lt_of_le (by positivity) hlow
      have hnostop : ¬ |newtonStep h σ2 k - k| < TOLERANCE := by
        have hlt : newtonStep h σ2 k ≤ k - 1 := by nlinarith
        intro hcon
        rw [abs_lt] at hcon
        unfold TOLERANCE at hcon
        norm_num at hcon
        linarith [hcon.1]
      rw [solveGo_succ, if_neg hnostop]
      have hNk : (25 / 9 : ℝ) ^ m ≤ newtonStep h σ2 k := by
        calc (25 / 9 : ℝ) ^ m = (9 / 25) * (25 / 9) ^ (m + 1) := by
              rw [pow_succ]; ring
          _ ≤ (9 / 25) * k := by nlinarith
          _ ≤ newtonStep h σ2 k := hlow
      have hNu : newtonStep h σ2 k * h ≤ 51 / 100 := by
        have := mul_le_mul_of_nonneg_right hupp hh.le
        nlinarith
      obtain ⟨ih1, ih2⟩ := ih (newtonStep h σ2 k) hNk hNu
      refine ⟨?_, ih2⟩
      calc (9 / 25 : ℝ) ^ (m + 1) * k = (9 / 25) ^ m * (9 / 25 * k) := by
            ring
        _ ≤ (9 / 25) ^ m * newtonStep h σ2 k :=
            mul_le_mul_of_nonneg_left hlow (by positivity)
        _ ≤ solveGo h σ2 m (newtonStep h σ2 k) := ih1

/-- First Newton step at the counterexample input: from the deep-water guess
`k₀ = σ²/g` the update jumps to `≈ 1/(2h)`. -/
lemma cex_first_step :
    (10:ℝ) ^ 85 / 2 ≤
        newtonStep (1 / 10 ^ 85) (1 / 10 ^ 200) (1 / 10 ^ 200 / GRAVITY) ∧
      newtonStep (1 / 10 ^ 85) (1 / 10 ^ 200) (1 / 10 ^ 200 / GRAVITY)
          * (1 / 10 ^ 85) ≤ 503 / 1000 := by
  have hg : (0:ℝ) < GRAVITY := by unfold GRAVITY; norm_num
  have hh : (0:ℝ) < 1 / 10 ^ 85 := by norm_num
  have hσ : (0:ℝ) < 1 / 10 ^ 200 := by norm_num
  set k0 : ℝ := 1 / 10 ^ 200 / GRAVITY with hk0def
  have hk0 : 0 < k0 := by rw [hk0def]; positivity
  have hGk0 : GRAVITY * k0 = 1 / 10 ^ 200 := by
    rw [hk0def]; field_simp; ring
  have hu0 : k0 * (1 / 10 ^ 85) = 1 / 10 ^ 285 / GRAVITY := by
    rw [hk0def]; ring_nf
  have hu0pos : 0 < k0 * (1 / 10 ^ 85) := by positivity
  have hu0small : k0 * (1 / 10 ^ 85) ≤ 1 / 10 ^ 280 := by
    rw [hu0]
    unfold GRAVITY
    rw [div_le_div_iff (by norm_num) (by norm_num)]
    norm_num
  have hD := @dispDF_pos (1 / 10 ^ 85) _ hh hk0
  have hDle : dispDF (1 / 10 ^ 85) k0 ≤
      2 * GRAVITY * (k0 * (1 / 10 ^ 85)) := by
    unfold dispDF
    have h1 := tanh_le_self hu0pos.le
    have h2 := sech2_le_one (k0 * (1 / 10 ^ 85))
    have h3 := sech2_pos (k0 * (1 / 10 ^ 85))
    nlinarith
  have hDge : GRAVITY * (k0 * (1 / 10 ^ 85)) * (199 / 100) ≤
      dispDF (1 / 10 ^ 85) k0 := by
    unfold dispDF
    have h1 := sub_cube_le_tanh hu0pos.le
    have h2 := one_sub_sq_le_sech2 (k0 * (1 / 10 ^ 85))
    have h3 : (k0 * (1 / 10 ^ 85)) ^ 2 ≤ 1 / 10 ^ 560 := by
      nlinarith
    nlinarith [mul_pos hg hu0pos]
  constructor
  · rw [newtonStep_eq (1 / 10 ^ 200) hh hk0, le_div_iff₀ hD]
    have hs := sech2_pos (k0 * (1 / 10 ^ 85))
    have hNum : (1:ℝ) / 10 ^ 200 ≤
        GRAVITY * k0 ^ 2 * (1 / 10 ^ 85) * sech2 (k0 * (1 / 10 ^ 85))
          + 1 / 10 ^ 200 := by
      nlinarith [mul_pos (mul_pos (mul_pos hg (pow_pos hk0 2)) hh) hs]
    calc (10:ℝ) ^ 85 / 2 * dispDF (1 / 10 ^ 85) k0
        ≤ 10 ^ 85 / 2 * (2 * GRAVITY * (k0 * (1 / 10 ^ 85))) := by
          exact mul_le_mul_of_nonneg_left hDle (by positivity)
      _ = 1 / 10 ^ 200 := by
          rw [show (10:ℝ) ^ 85 / 2 * (2 * GRAVITY * (k0 * (1 / 10 ^ 85)))
            = (GRAVITY * k0) * (10 ^ 85 * (1 / 10 ^ 85)) from by ring,
            hGk0]
          norm_num
      _ ≤ _ := hNum
  · have hgoal : newtonStep (1 / 10 ^ 85) (1 / 10 ^ 200) k0 ≤
        503 / 1000 * 10 ^ 85 := by
      rw [newtonStep_eq (1 / 10 ^ 200) hh hk0, div_le_iff₀ hD]
      have hNumUB : GRAVITY * k0 ^ 2 * (1 / 10 ^ 85) *
          sech2 (k0 * (1 / 10 ^ 85)) + 1 / 10 ^ 200 ≤
          GRAVITY * k0 ^ 2 * (1 / 10 ^ 85) + 1 / 10 ^ 200 := by
        have := sech2_le_one (k0 * (1 / 10 ^ 85))
        nlinarith [mul_pos (mul_pos hg (pow_pos hk0 2)) hh]
      have hkey : GRAVITY * k0 ^ 2 * (1 / 10 ^ 85) + 1 / 10 ^ 200 ≤
          503 / 1000 * 10 ^ 85 *
            (GRAVITY * (k0 * (1 / 10 ^ 85)) * (199 / 100)) := by
        have hq : GRAVITY * k0 ^ 2 * (1 / 10 ^ 85)
            = (1 / 10 ^ 200) * (k0 * (1 / 10 ^ 85)) := by
          rw [show GRAVITY * k0 ^ 2 * (1 / 10 ^ 85)
            = (GRAVITY * k0) * (k0 * (1 / 10 ^ 85)) from by ring, hGk0]
        have hr : 503 / 1000 * 10 ^ 85 *
            (GRAVITY * (k0 * (1 / 10 ^ 85)) * (199 / 100))
            = (100097 / 100000) * ((GRAVITY * k0) * (10 ^ 85 * (1 / 10 ^ 85))) := by
          ring
        rw [hq, hr, hGk0]
        have hu1 : k0 * (1 / 10 ^ 85) ≤ 1 := by
          calc k0 * (1 / 10 ^ 85) ≤ 1 / 10 ^ 280 := hu0small
            _ ≤ 1 := by norm_num
        norm_num
        nlinarith [hu0pos]
      have hRge := mul_le_mul_of_nonneg_left hDge
        (by positivity : (0:ℝ) ≤ 503 / 1000 * 10 ^ 85)
      linarith
    calc newtonStep (1 / 10 ^ 85) (1 / 10 ^ 200) k0 * (1 / 10 ^ 85)
        ≤ 503 / 1000 * 10 ^ 85 * (1 / 10 ^ 85) := by
          exact mul_le_mul_of_nonneg_right hgoal (by positivity)
      _ = 503 / 1000 := by norm_num

/-- Bounds on the wavenumber returned at the counterexample input
`h = 10⁻⁸⁵`, `T = 2π·10¹⁰⁰`: the loop runs through all 100 iterations and
returns a huge value. -/
lemma cex_solve_bounds :
    (9 / 25 : ℝ) ^ 99 * (10 ^ 85 / 2) ≤
        solveWaveNumber (1 / 10 ^ 85) (2 * π * 10 ^ 100) ∧
      solveWaveNumber (1 / 10 ^ 85) (2 * π * 10 ^ 100) * (1 / 10 ^ 85)
        ≤ 51 / 100 := by
  have hpi := Real.pi_pos
  have hπ : (π:ℝ) ≠ 0 := Real.pi_ne_zero
  have hσval : 2 * π / (2 * π * 10 ^ 100) = 1 / 10 ^ 100 := by
    rw [div_eq_div_iff (by positivity : (0:ℝ) < 2 * π * 10 ^ 100).ne'
      (by norm_num : ((10:ℝ) ^ 100) ≠ 0)]
    ring
  have hmul : ((1:ℝ) / 10 ^ 100) * (1 / 10 ^ 100) = 1 / 10 ^ 200 := by
    norm_num
  have hsw0 : solveWaveNumber (1 / 10 ^ 85) (2 * π * 10 ^ 100) =
      solveGo (1 / 10 ^ 85)
        ((2 * π / (2 * π * 10 ^ 100)) * (2 * π / (2 * π * 10 ^ 100)))
        MAX_ITERATIONS
        ((2 * π / (2 * π * 10 ^ 100)) * (2 * π / (2 * π * 10 ^ 100))
          / GRAVITY) := rfl
  rw [hσval, hmul] at hsw0
  obtain ⟨hk1lb, hk1ub⟩ := cex_first_step
  have hg : (0:ℝ) < GRAVITY := by unfold GRAVITY; norm_num
  have hk0le : (1:ℝ) / 10 ^ 200 / GRAVITY ≤ 1 := by
    rw [div_le_one hg]
    unfold GRAVITY
    norm_num
  have hk0pos : (0:ℝ) < 1 / 10 ^ 200 / GRAVITY := by positivity
  have hnostop : ¬ |newtonStep (1 / 10 ^ 85) (1 / 10 ^ 200)
      (1 / 10 ^ 200 / GRAVITY) - 1 / 10 ^ 200 / GRAVITY| < TOLERANCE := by
    intro hcon
    rw [abs_lt] at hcon
    unfold TOLERANCE at hcon
    have h1 : (10:ℝ) ^ 85 / 2 - 1 ≤ newtonStep (1 / 10 ^ 85) (1 / 10 ^ 200)
        (1 / 10 ^ 200 / GRAVITY) - 1 / 10 ^ 200 / GRAVITY := by
      linarith [hk1lb, hk0le]
    norm_num at hcon h1
    linarith [hcon.2, h1]
  rw [show MAX_ITERATIONS = 99 + 1 from rfl, solveGo_succ,
    if_neg hnostop] at hsw0
  have hbounds := solveGo_cex (1 / 10 ^ 85) (1 / 10 ^ 200)
    (by norm_num) (by norm_num) (by norm_num)
    (by unfold GRAVITY; rw [div_le_div_iff (by norm_num) (by norm_num)]; norm_num)
    99 (newtonStep (1 / 10 ^ 85) (1 / 10 ^ 200) (1 / 10 ^ 200 / GRAVITY))
    (by
      refine le_trans ?_ hk1lb
      norm_num)
    (le_trans hk1ub (by norm_num))
  rw [hsw0]
  refine ⟨?_, hbounds.2⟩
  calc (9 / 25 : ℝ) ^ 99 * (10 ^ 85 / 2)
      ≤ (9 / 25 : ℝ) ^ 99 *
        newtonStep (1 / 10 ^ 85) (1 / 10 ^ 200) (1 / 10 ^ 200 / GRAVITY) :=
        mul_le_mul_of_nonneg_left hk1lb (by positivity)
    _ ≤ _ := hbounds.1

/-- Lower bound on the residual left after the 100 iterations at the
counterexample input. -/
lemma cex_residual_lb :
    1 / 10 ^ 4 + 1 / 10 ^ 200 ≤
      GRAVITY * solveWaveNumber (1 / 10 ^ 85) (2 * π * 10 ^ 100) *
        Real.tanh (solveWaveNumber (1 / 10 ^ 85) (2 * π * 10 ^ 100)
          * (1 / 10 ^ 85)) := by
  obtain ⟨hKlb, hKub⟩ := cex_solve_bounds
  set K := solveWaveNumber (1 / 10 ^ 85) (2 * π * 10 ^ 100) with hK
  have hg : (0:ℝ) < GRAVITY := by unfold GRAVITY; norm_num
  have hKmin : (0:ℝ) < (9 / 25 : ℝ) ^ 99 * (10 ^ 85 / 2) := by positivity
  have hKpos : 0 < K := lt_of_lt_of_le hKmin hKlb
  have hupos : (0:ℝ) ≤ K * (1 / 10 ^ 85) := by positivity
  have htanh := sub_cube_le_tanh hupos
  have husq : (K * (1 / 10 ^ 85)) ^ 2 ≤ 2601 / 10000 := by nlinarith
  have hstep1 : GRAVITY * K * (K * (1 / 10 ^ 85) -
      (K * (1 / 10 ^ 85)) ^ 3 / 3) ≤ GRAVITY * K * Real.tanh (K * (1 / 10 ^ 85)) := by
    exact mul_le_mul_of_nonneg_left htanh (by positivity)
  have hstep2 : GRAVITY * (K * K) * (1 / 10 ^ 85) * (9 / 10) ≤
      GRAVITY * K * (K * (1 / 10 ^ 85) - (K * (1 / 10 ^ 85)) ^ 3 / 3) := by
    have hfac : (9:ℝ) / 10 ≤ 1 - (K * (1 / 10 ^ 85)) ^ 2 / 3 := by nlinarith
    have hexp : GRAVITY * K * (K * (1 / 10 ^ 85) -
        (K * (1 / 10 ^ 85)) ^ 3 / 3) =
        GRAVITY * (K * K) * (1 / 10 ^ 85) *
          (1 - (K * (1 / 10 ^ 85)) ^ 2 / 3) := by ring
    rw [hexp]
    have hGKK : (0:ℝ) ≤ GRAVITY * (K * K) * (1 / 10 ^ 85) := by positivity
    exact mul_le_mul_of_nonneg_left hfac hGKK
  have hstep3 : GRAVITY * ((9 / 25 : ℝ) ^ 99 * (10 ^ 85 / 2) *
      ((9 / 25 : ℝ) ^ 99 * (10 ^ 85 / 2))) * (1 / 10 ^ 85) * (9 / 10) ≤
      GRAVITY * (K * K) * (1 / 10 ^ 85) * (9 / 10) := by
    have hKK : (9 / 25 : ℝ) ^ 99 * (10 ^ 85 / 2) *
        ((9 / 25 : ℝ) ^ 99 * (10 ^ 85 / 2)) ≤ K * K :=
      mul_le_mul hKlb hKlb hKmin.le hKpos.le
    nlinarith [hg]
  have hnum : 1 / 10 ^ 4 + 1 / 10 ^ 200 ≤
      GRAVITY * ((9 / 25 : ℝ) ^ 99 * (10 ^ 85 / 2) *
        ((9 / 25 : ℝ) ^ 99 * (10 ^ 85 / 2))) * (1 / 10 ^ 85) * (9 / 10) := by
    unfold GRAVITY
    rw [show ((9:ℝ)/25) ^ 99 * (10 ^ 85 / 2) * ((9/25) ^ 99 * (10 ^ 85 / 2))
      = (9/25) ^ 198 * (10 ^ 170 / 4) from by rw [show (198:ℕ) = 99 + 99 from rfl, pow_add]; ring]
    norm_num
  linarith

/-- **C1, counterexample.**  At `h = 10⁻⁸⁵` m, `T = 2π·10¹⁰⁰` s (both
positive), the Newton iteration exhausts its 100-iteration cap far from the
root and `solveWaveNumber` returns a wavenumber whose dispersion residual
`|g·k·tanh(k·h) - (2π/T)²|` is astronomically larger than `1e-4`: the claim
as stated (for every `h > 0`, `T > 0`) is false. -/
theorem claim1_counterexample :
    (0:ℝ) < 1 / 10 ^ 85 ∧ (0:ℝ) < 2 * π * 10 ^ 100 ∧
    ¬ (|GRAVITY * solveWaveNumber (1 / 10 ^ 85) (2 * π * 10 ^ 100) *
          Real.tanh (solveWaveNumber (1 / 10 ^ 85) (2 * π * 10 ^ 100)
            * (1 / 10 ^ 85)) -
        (2 * π / (2 * π * 10 ^ 100)) ^ 2| < 1e-4) := by
  have hpi := Real.pi_pos
  refine ⟨by norm_num, by positivity, ?_⟩
  have hπ : (π:ℝ) ≠ 0 := Real.pi_ne_zero
  have hσval : 2 * π / (2 * π * 10 ^ 100) = 1 / 10 ^ 100 := by
    rw [div_eq_div_iff (by positivity : (0:ℝ) < 2 * π * 10 ^ 100).ne'
      (by norm_num : ((10:ℝ) ^ 100) ≠ 0)]
    ring
  rw [hσval]
  have hσsq : ((1:ℝ) / 10 ^ 100) ^ 2 = 1 / 10 ^ 200 := by
    norm_num
  rw [hσsq]
  intro hcon
  have hres := cex_residual_lb
  have habs := le_abs_self (GRAVITY *
    solveWaveNumber (1 / 10 ^ 85) (2 * π * 10 ^ 100) *
      Real.tanh (solveWaveNumber (1 / 10 ^ 85) (2 * π * 10 ^ 100)
        * (1 / 10 ^ 85)) - 1 / 10 ^ 200)
  have h4 : (1e-4 : ℝ) = 1 / 10 ^ 4 := by norm_num
  rw [h4] at hcon
  linarith

/-- **C7, counterexample.**  At the same input the period-based solve does
not converge, so feeding its wavelength back into `solveFromWavelength`
reproduces a period that is off by an astronomical amount, not `1e-3`:
the round-trip claim as stated (for every `h > 0`, `T > 0`) is false. -/
theorem claim7_counterexample :
    (0:ℝ) < 1 / 10 ^ 85 ∧ (0:ℝ) < 2 * π * 10 ^ 100 ∧
    ¬ (|(solveFromWavelength (1 / 10 ^ 85)
          (solveDispersion (1 / 10 ^ 85) (2 * π * 10 ^ 100)).L).T -
        2 * π * 10 ^ 100| < 1e-3) := by
  have hpi := Real.pi_pos
  refine ⟨by norm_num, by positivity, ?_⟩
  obtain ⟨hKlb, hKub⟩ := cex_solve_bounds
  set K := solveWaveNumber (1 / 10 ^ 85) (2 * π * 10 ^ 100) with hK
  have hKmin : (0:ℝ) < (9 / 25 : ℝ) ^ 99 * (10 ^ 85 / 2) := by positivity
  have hKpos : 0 < K := lt_of_lt_of_le hKmin hKlb
  have hL : (solveDispersion (1 / 10 ^ 85) (2 * π * 10 ^ 100)).L
      = 2 * π / K := rfl
  have hback : 2 * π / (2 * π / K) = K := by
    field_simp
  have hT' : (solveFromWavelength (1 / 10 ^ 85) (2 * π / K)).T =
      2 * π / Real.sqrt (GRAVITY * (2 * π / (2 * π / K)) *
        Real.tanh ((2 * π / (2 * π / K)) * (1 / 10 ^ 85))) := rfl
  rw [hL, hT', hback]
  set S := GRAVITY * K * Real.tanh (K * (1 / 10 ^ 85)) with hS
  have hSlb : 1 / 10 ^ 4 + 1 / 10 ^ 200 ≤ S := cex_residual_lb
  have hsq : (1:ℝ) / 100 ≤ Real.sqrt S := by
    have h1 : ((1:ℝ) / 100) ^ 2 ≤ S := by nlinarith
    have := Real.sqrt_le_sqrt h1
    calc (1:ℝ) / 100 = Real.sqrt (((1:ℝ) / 100) ^ 2) := by
          rw [Real.sqrt_sq (by norm_num)]
      _ ≤ Real.sqrt S := this
  have hsqpos : 0 < Real.sqrt S := lt_of_lt_of_le (by norm_num) hsq
  have hT'ub : 2 * π / Real.sqrt S ≤ 800 := by
    rw [div_le_iff₀ hsqpos]
    have hpile := Real.pi_le_four
    nlinarith
  have hT'pos : 0 ≤ 2 * π / Real.sqrt S := by positivity
  intro hcon
  rw [abs_lt] at hcon
  have hbig : (6:ℝ) * 10 ^ 100 ≤ 2 * π * 10 ^ 100 := by
    nlinarith [Real.pi_gt_three]
  have := hcon.1
  norm_num at this
  nlinarith [this]

/-! ### Claim C7 (amended part): the round-trip holds when the period solve
converges, for coastal-scale inputs. -/

/-- **C7 (amended).**  For `0 < h ≤ 100` and `0 < T ≤ 20` such that the
period-based Newton solve converges (its stopping criterion fires within
the cap), feeding the produced wavelength into `solveFromWavelength`
reproduces the period within `1e-3`. -/
theorem claim7_amended (h T : ℝ) (hh : 0 < h) (hh100 : h ≤ 100)
    (hT : 0 < T) (hT20 : T ≤ 20)
    (hconv : stopsWithin h ((2 * π / T) * (2 * π / T)) MAX_ITERATIONS
      ((2 * π / T) * (2 * π / T) / GRAVITY)) :
    |(solveFromWavelength h (solveDispersion h T).L).T - T| < 1e-3 := by
  have hpi := Real.pi_pos
  have hπ : (π:ℝ) ≠ 0 := Real.pi_ne_zero
  have hg : (0:ℝ) < GRAVITY := by unfold GRAVITY; norm_num
  set σ : ℝ := 2 * π / T with hσdef
  have hσpos : 0 < σ := by rw [hσdef]; positivity
  have hσ2pos : 0 < σ * σ := mul_pos hσpos hσpos
  obtain ⟨ks, hks, hstop, heq⟩ :=
    solveGo_of_stopsWithin hh hσ2pos MAX_ITERATIONS _ (by positivity) hconv
  have hKdef : solveWaveNumber h T = newtonStep h (σ * σ) ks := heq
  clear hconv heq
  set K : ℝ := solveWaveNumber h T with hKset
  have hKpos : 0 < K := solveWaveNumber_pos hh hT
  have hL : (solveDispersion h T).L = 2 * π / K := rfl
  clear_value K
  -- residual bound
  have hr0 := @residual_le_quadratic _ (σ * σ) _ hh hks
  have hΔsq : (newtonStep h (σ * σ) ks - ks) ^ 2 ≤ TOLERANCE ^ 2 := by
    rw [← sq_abs]
    have := abs_nonneg (newtonStep h (σ * σ) ks - ks)
    have hTn : (0:ℝ) ≤ TOLERANCE := by unfold TOLERANCE; norm_num
    nlinarith [hstop]
  have hrb : |dispF h (σ * σ) K| ≤ 3 / 10 ^ 9 := by
    rw [hKdef]
    have h1 : 3 * GRAVITY * h * (newtonStep h (σ * σ) ks - ks) ^ 2 ≤
        3 * GRAVITY * h * TOLERANCE ^ 2 :=
      mul_le_mul_of_nonneg_left hΔsq (by positivity)
    have h2 : 3 * GRAVITY * h * TOLERANCE ^ 2 ≤ 3 / 10 ^ 9 := by
      unfold GRAVITY TOLERANCE
      nlinarith
    linarith [hr0]
  -- geometry of the round trip
  have hKne : K ≠ 0 := hKpos.ne'
  have hback : 2 * π / (2 * π / K) = K := by field_simp
  have hT' : (solveFromWavelength h (2 * π / K)).T =
      2 * π / Real.sqrt (GRAVITY * (2 * π / (2 * π / K)) *
        Real.tanh ((2 * π / (2 * π / K)) * h)) := rfl
  rw [hL, hT', hback]
  set S : ℝ := GRAVITY * K * Real.tanh (K * h) with hSdef
  have hSr : S = dispF h (σ * σ) K + σ * σ := by
    rw [hSdef]; unfold dispF; ring
  clear_value S
  have hσlb : 3 / 10 ≤ σ := by
    rw [hσdef, le_div_iff₀ hT]
    nlinarith [Real.pi_gt_three]
  have hSlb : (σ / 2) ^ 2 ≤ S := by
    rw [hSr]
    have : |dispF h (σ * σ) K| ≤ 3 / 10 ^ 9 := hrb
    have h1 : -(3 / 10 ^ 9 : ℝ) ≤ dispF h (σ * σ) K := by
      rw [abs_le] at this; linarith [this.1]
    nlinarith [hσlb]
  have hSpos : 0 < S := lt_of_lt_of_le (by positivity) hSlb
  set s : ℝ := Real.sqrt S with hsdef
  have hs2 : s ^ 2 = S := Real.sq_sqrt hSpos.le
  have hslb : σ / 2 ≤ s := by
    rw [hsdef]
    calc σ / 2 = Real.sqrt ((σ / 2) ^ 2) := (Real.sqrt_sq (by positivity)).symm
      _ ≤ Real.sqrt S := Real.sqrt_le_sqrt hSlb
  have hspos : 0 < s := lt_of_lt_of_le (by positivity) hslb
  -- |σ - s| ≤ |r| / σ
  have habs1 : |σ - s| * (σ + s) = |σ * σ - S| := by
    rw [← abs_of_pos (show (0:ℝ) < σ + s by positivity), ← abs_mul]
    congr 1
    linear_combination -hs2
  have habs2 : |σ * σ - S| = |dispF h (σ * σ) K| := by
    rw [hSr]
    rw [show σ * σ - (dispF h (σ * σ) K + σ * σ) = -(dispF h (σ * σ) K) by ring,
      abs_neg]
  have hd1 : |σ - s| ≤ |dispF h (σ * σ) K| / σ := by
    rw [le_div_iff₀ hσpos]
    calc |σ - s| * σ ≤ |σ - s| * (σ + s) :=
          mul_le_mul_of_nonneg_left (by linarith [hspos]) (abs_nonneg _)
      _ = |dispF h (σ * σ) K| := by rw [habs1, habs2]
  -- the final estimate
  have hσT : σ * T = 2 * π := by
    rw [hσdef]; field_simp
  have hmain : |2 * π / s - T| = T * |σ - s| / s := by
    have h1 : 2 * π / s - T = (σ - s) * T / s := by
      rw [← hσT]
      field_simp
      ring
    rw [h1, abs_div, abs_of_pos hspos, abs_mul, abs_of_pos hT]
    ring
  rw [hmain]
  rw [le_div_iff₀ hσpos] at hd1
  have hd2 : |σ - s| ≤ 1 / 10 ^ 8 := by
    have hm : |σ - s| * (3 / 10) ≤ |σ - s| * σ :=
      mul_le_mul_of_nonneg_left hσlb (abs_nonneg _)
    linarith [hd1, hrb, hm]
  rw [div_lt_iff₀ hspos]
  have e1 : T * |σ - s| ≤ 20 * (1 / 10 ^ 8) :=
    mul_le_mul hT20 hd2 (abs_nonneg _) (by norm_num)
  have e2 : (1e-3 : ℝ) * (σ / 2) ≤ 1e-3 * s :=
    mul_le_mul_of_nonneg_left hslb (by norm_num)
  have e3 : (1e-3 : ℝ) * (3 / 20) ≤ 1e-3 * (σ / 2) := by
    have : (3:ℝ) / 20 ≤ σ / 2 := by linarith [hσlb]
    exact mul_le_mul_of_nonneg_left this (by norm_num)
  norm_num at e1 e2 e3 ⊢
  linarith

lemma cube_div_27_le_exp {x : ℝ} (hx : 0 ≤ x) : x ^ 3 / 27 ≤ Real.exp x := by
  have h := Real.add_one_le_exp (x / 3)
  have hcube : (x / 3) ^ 3 ≤ Real.exp (x / 3) ^ 3 := by
    refine pow_le_pow_left (by positivity) ?_ 3
    linarith
  have he : Real.exp (x / 3) ^ 3 = Real.exp x := by
    rw [← Real.exp_nat_mul]
    congr 1
    push_cast
    ring
  rw [he] at hcube
  calc x ^ 3 / 27 = (x / 3) ^ 3 := by ring
    _ ≤ Real.exp x := hcube

lemma exp_neg_le_27_div_cube {x : ℝ} (hx : 0 < x) :
    Real.exp (-x) ≤ 27 / x ^ 3 := by
  have h1 := cube_div_27_le_exp hx.le
  have h2 : Real.exp (-x) = 1 / Real.exp x := by
    rw [Real.exp_neg, one_div]
  rw [h2, div_le_div_iff (Real.exp_pos x) (by positivity)]
  nlinarith [Real.exp_pos x]

/-- Witness for `claim7_amended`: at `h = 100` m, `T = 2π/10` s the first
Newton update is already below the tolerance, so the hypotheses are
satisfiable and the round-trip bound holds there. -/
theorem claim7_amended_witness :
    (0:ℝ) < 100 ∧ (100:ℝ) ≤ 100 ∧ (0:ℝ) < 2 * π / 10 ∧ 2 * π / 10 ≤ 20 ∧
    stopsWithin 100 ((2 * π / (2 * π / 10)) * (2 * π / (2 * π / 10)))
      MAX_ITERATIONS
      ((2 * π / (2 * π / 10)) * (2 * π / (2 * π / 10)) / GRAVITY) ∧
    |(solveFromWavelength 100 (solveDispersion 100 (2 * π / 10)).L).T -
      2 * π / 10| < 1e-3 := by
  have hpi := Real.pi_pos
  have hπ : (π:ℝ) ≠ 0 := Real.pi_ne_zero
  have h10 : 2 * π / (2 * π / 10) = 10 := by
    field_simp
  have hg : (0:ℝ) < GRAVITY := by unfold GRAVITY; norm_num
  have hk0 : (0:ℝ) < 100 / GRAVITY := by positivity
  have hh100 : (0:ℝ) < 100 := by norm_num
  have hdfpos := @dispDF_pos 100 (100 / GRAVITY) hh100 hk0
  set u0 : ℝ := 100 / GRAVITY * 100 with hu0
  have hu0pos : 0 < u0 := by rw [hu0]; positivity
  have hu0big : (1000:ℝ) ≤ u0 := by
    rw [hu0]; unfold GRAVITY; norm_num
  have hexp : Real.exp (-(2 * u0)) ≤ 27 / (8 * 10 ^ 9) := by
    have h4 := @exp_neg_le_27_div_cube (2 * u0) (by positivity)
    have h5 : 27 / (2 * u0) ^ 3 ≤ 27 / (8 * 10 ^ 9) := by
      have hcube : (1000:ℝ) ^ 3 ≤ u0 ^ 3 :=
        pow_le_pow_left (by norm_num) hu0big 3
      rw [div_le_div_iff (by positivity) (by norm_num)]
      nlinarith [hcube]
    linarith
  have htanh2 : 1 - Real.tanh u0 ≤ 27 / (4 * 10 ^ 9) := by
    calc 1 - Real.tanh u0 ≤ 2 * Real.exp (-(2 * u0)) := one_sub_tanh_le u0
      _ ≤ 2 * (27 / (8 * 10 ^ 9)) := by linarith
      _ = 27 / (4 * 10 ^ 9) := by ring
  have htanh_half : (1:ℝ) / 2 ≤ Real.tanh u0 := by
    have : (27:ℝ) / (4 * 10 ^ 9) ≤ 1 / 2 := by norm_num
    linarith
  have hdispF : dispF 100 100 (100 / GRAVITY) = 100 * Real.tanh u0 - 100 := by
    unfold dispF
    rw [← hu0]
    have hg1 : GRAVITY * (100 / GRAVITY) = 100 := by field_simp
    rw [hg1]
  have hdf_lb : GRAVITY / 2 ≤ dispDF 100 (100 / GRAVITY) := by
    unfold dispDF
    rw [← hu0]
    have h2 : 0 ≤ GRAVITY * (100 / GRAVITY) * 100 * sech2 u0 := by
      have := sech2_pos u0
      positivity
    nlinarith [htanh_half]
  have hstep : |newtonStep 100 100 (100 / GRAVITY) - 100 / GRAVITY|
      < TOLERANCE := by
    have hΔ : newtonStep 100 100 (100 / GRAVITY) - 100 / GRAVITY
        = -(dispF 100 100 (100 / GRAVITY) / dispDF 100 (100 / GRAVITY)) := by
      unfold newtonStep
      ring
    rw [hΔ, abs_neg, abs_div, abs_of_pos hdfpos, hdispF,
      abs_of_nonpos (by nlinarith [tanh_lt_one u0]), neg_sub,
      div_lt_iff₀ hdfpos]
    have hT : TOLERANCE = 1 / 1000000 := by unfold TOLERANCE; norm_num
    have hGnum : GRAVITY = 981 / 100 := by unfold GRAVITY; norm_num
    rw [hT]
    linarith [htanh2, hdf_lb, hGnum]
  have hstops : stopsWithin 100 ((2 * π / (2 * π / 10)) * (2 * π / (2 * π / 10)))
      MAX_ITERATIONS
      ((2 * π / (2 * π / 10)) * (2 * π / (2 * π / 10)) / GRAVITY) := by
    rw [h10]
    norm_num
    rw [show MAX_ITERATIONS = 99 + 1 from rfl, stopsWithin_succ]
    left
    exact hstep
  have hT20 : 2 * π / 10 ≤ 20 := by
    have := Real.pi_le_four
    linarith
  exact ⟨by norm_num, le_rfl, by positivity, hT20, hstops,
    claim7_amended 100 (2 * π / 10) (by norm_num) le_rfl (by positivity)
      hT20 hstops⟩

/-- **C3, counterexample.**  At `x = 28` in a 100×100 domain with
`bayDepth = 1`, `capeExtension = 0`, the code yields
`15 - 2.6·exp(0) = 12.4`, whereas the claim's closed form (baseline PLUS
bay term MINUS cape term) yields `15 + 2.6 = 17.6`: the claim's signs are
reversed relative to the code. -/
theorem claim3_counterexample :
    coastlineFunction 28 ⟨100, 100, 2, 2, 0.01, 1, 0, none⟩ ≠
      claimCoastlineFunction 28 ⟨100, 100, 2, 2, 0.01, 1, 0, none⟩ := by
  have hexp0 : Real.exp (-0.5 * (((28:ℝ) - 0.28 * 100) / (0.05 * 100)) ^ 2)
      = 1 := by
    rw [show (-0.5 * (((28:ℝ) - 0.28 * 100) / (0.05 * 100)) ^ 2) = 0 by
      norm_num]
    exact Real.exp_zero
  have hcode : coastlineFunction 28 ⟨100, 100, 2, 2, 0.01, 1, 0, none⟩
      = 12.4 := by
    unfold coastlineFunction
    simp only [Option.getD]
    rw [hexp0]
    norm_num
  have hclaim : claimCoastlineFunction 28 ⟨100, 100, 2, 2, 0.01, 1, 0, none⟩
      = 17.6 := by
    unfold claimCoastlineFunction
    simp only [Option.getD]
    rw [hexp0]
    norm_num
  rw [hcode, hclaim]
  norm_num

/-- **C3 (amended).**  `coastlineFunction` is the closed form
baseline − bay Gaussian (centered at `0.28·width`, width `0.05·width`,
scale `2.6·bayDepth`) + cape Gaussian (centered at `0.68·width`, width
`0.10·width`, scale `1.10·capeExtension`), clamped into
`[0.02·height, 0.6·height]`; in particular for `height ≥ 0` the result is
bounded in that interval for every `x`. -/
theorem claim3_amended (x : ℝ) (config : TerrainConfig)
    (hh : 0 ≤ config.height) :
    coastlineFunction x config = amendedCoastlineFunction x config ∧
    0.02 * config.height ≤ coastlineFunction x config ∧
    coastlineFunction x config ≤ 0.6 * config.height := by
  refine ⟨rfl, ?_, ?_⟩
  · exact le_max_left _ _
  · exact max_le (by linarith) (min_le_right _ _)

/-- Witness for `claim3_amended` at `x = 0` in a concrete configuration. -/
theorem claim3_amended_witness :
    (0:ℝ) ≤ (100:ℝ) ∧
    (coastlineFunction 0 ⟨100, 100, 2, 2, 0.01, 1, 0, none⟩ =
        amendedCoastlineFunction 0 ⟨100, 100, 2, 2, 0.01, 1, 0, none⟩ ∧
      0.02 * (100:ℝ) ≤ coastlineFunction 0 ⟨100, 100, 2, 2, 0.01, 1, 0, none⟩ ∧
      coastlineFunction 0 ⟨100, 100, 2, 2, 0.01, 1, 0, none⟩ ≤ 0.6 * 100) :=
  ⟨by norm_num, claim3_amended 0 ⟨100, 100, 2, 2, 0.01, 1, 0, none⟩ (by norm_num)⟩

/-! #### Characterizing the per-column scan -/

lemma findTopWet_some_iff (grid : Grid) (i : ℕ) :
    ∀ n j, findTopWet grid i n = some j ↔
      j < n ∧ isWet (grid j i) ∧ ∀ j', j < j' → j' < n → ¬ isWet (grid j' i) := by
  intro n
  induction n with
  | zero => intro j; simp [findTopWet]
  | succ m ih =>
      intro j
      rw [findTopWet]
      split
      · rename_i hwet
        constructor
        · intro hsome
          cases hsome
          exact ⟨Nat.lt_succ_self m, hwet, fun j' h1 h2 => by omega⟩
        · rintro ⟨hj, hw, hmax⟩
          rcases Nat.lt_succ_iff_lt_or_eq.1 hj with hlt | heq
          · exact absurd hwet (hmax m hlt (Nat.lt_succ_self m))
          · rw [heq]
      · rename_i hdry
        rw [ih j]
        constructor
        · rintro ⟨hj, hw, hmax⟩
          refine ⟨by omega, hw, fun j' h1 h2 => ?_⟩
          rcases Nat.lt_succ_iff_lt_or_eq.1 h2 with hlt | heq
          · exact hmax j' h1 hlt
          · rw [heq]; exact hdry
        · rintro ⟨hj, hw, hmax⟩
          have hne : j ≠ m := by
            intro hcon; rw [hcon] at hw; exact hdry hw
          exact ⟨by omega, hw, fun j' h1 h2 => hmax j' h1 (by omega)⟩

lemma findTopWet_none_iff (grid : Grid) (i : ℕ) :
    ∀ n, findTopWet grid i n = none ↔ ∀ j < n, ¬ isWet (grid j i) := by
  intro n
  induction n with
  | zero => simp [findTopWet]
  | succ m ih =>
      rw [findTopWet]
      split
      · rename_i hwet
        constructor
        · intro hsome
          exact Option.noConfusion hsome
        · intro hall
          exact absurd hwet (hall m (Nat.lt_succ_self m))
      · rename_i hdry
        rw [ih]
        constructor
        · intro hall j hj
          rcases Nat.lt_succ_iff_lt_or_eq.1 hj with hlt | heq
          · exact hall j hlt
          · rw [heq]; exact hdry
        · exact fun hall j hj => hall j (by omega)

/-- **C10.**  The per-column analytic direction pass writes only the
`alpha` field: `x`, `y`, `h`, `k`, `c` of every cell are unchanged. -/
theorem claim10_frame (gy gx : ℕ) (grid : Grid) (T alpha0 : ℝ) (j i : ℕ) :
    (updateWaveDirections gy gx grid T alpha0 j i).x = (grid j i).x ∧
    (updateWaveDirections gy gx grid T alpha0 j i).y = (grid j i).y ∧
    (updateWaveDirections gy gx grid T alpha0 j i).h = (grid j i).h ∧
    (updateWaveDirections gy gx grid T alpha0 j i).k = (grid j i).k ∧
    (updateWaveDirections gy gx grid T alpha0 j i).c = (grid j i).c := by
  unfold updateWaveDirections
  split
  · exact ⟨rfl, rfl, rfl, rfl, rfl⟩
  · exact ⟨rfl, rfl, rfl, rfl, rfl⟩

/-- **C2.**  In the analytic mode: (a) the per-column scan finds the
topmost wet cell (scanning from the deep-water edge `j = gy-1` inwards)
and stores the Snell invariant `c·sin(α₀)` computed from that cell's
dispersion phase speed `c = σ/k`; (b) marching shoreward, every wet cell
in rows `j < gy-1` whose column invariant is nonzero receives
`α = asin(clamp(invariant/c, -0.999, 0.999))`, replaced by
`sign(ratio)·(π/2 - 0.01)` whenever `cos α ≤ 0`. -/
theorem claim2_snell_marching (gy gx : ℕ) (grid : Grid) (T alpha0 : ℝ)
    (hgy : 0 < gy) (hgx : 0 < gx) (i : ℕ) (hi : i < gx) :
    (∀ j, findTopWet grid i gy = some j →
      j < gy ∧ isWet (grid j i) ∧
      (∀ j', j < j' → j' < gy → ¬ isWet (grid j' i)) ∧
      snellConstant gy grid (2 * π / T) alpha0 i =
        (2 * π / T) / (grid j i).k * Real.sin alpha0) ∧
    (∀ j, j < gy - 1 → isWet (grid j i) →
      snellConstant gy grid (2 * π / T) alpha0 i ≠ 0 →
      (updateWaveDirections gy gx grid T alpha0 j i).alpha =
        (let ratio0 := snellConstant gy grid (2 * π / T) alpha0 i /
          ((2 * π / T) / (grid j i).k)
        let ratio := min 0.999 (max (-0.999) ratio0)
        if Real.cos (Real.arcsin ratio) ≤ 0 then
          (if 0 ≤ ratio0 then (1:ℝ) else -1) * (π / 2 - 0.01)
        else Real.arcsin ratio)) := by
  constructor
  · intro j hsome
    obtain ⟨hj, hw, hmax⟩ := (findTopWet_some_iff grid i gy j).1 hsome
    exact ⟨hj, hw, hmax, by rw [snellConstant, hsome]⟩
  · intro j hj hwet hsnell
    have hguard : ¬ (gy = 0 ∨ gx = 0) := by omega
    unfold updateWaveDirections
    rw [if_neg hguard]
    show analyticAlpha gy gx grid (2 * π / T) alpha0 j i = _
    unfold analyticAlpha
    rw [if_pos ⟨hj, hi⟩]
    have hnd : ¬ ((grid j i).h ≤ 0.1 ∨ (grid j i).k ≤ 0) := by
      push_neg
      exact ⟨hwet.1, hwet.2⟩
    simp only [hnd, if_false, if_neg hsnell]

/-- Witness for `claim2_snell_marching` on a 1×1 wet grid. -/
theorem claim2_witness :
    0 < 1 ∧ 0 < 1 ∧ (0:ℕ) < 1 ∧
    ((∀ j, findTopWet (fun _ _ => (⟨0, 0, 20, 1, 1, 0⟩ : GridPoint)) 0 1
        = some j →
      j < 1 ∧ isWet ((fun _ _ => (⟨0, 0, 20, 1, 1, 0⟩ : GridPoint)) j 0) ∧
      (∀ j', j < j' → j' < 1 →
        ¬ isWet ((fun _ _ => (⟨0, 0, 20, 1, 1, 0⟩ : GridPoint)) j' 0)) ∧
      snellConstant 1 (fun _ _ => (⟨0, 0, 20, 1, 1, 0⟩ : GridPoint))
          (2 * π / 1) (π / 2) 0 =
        (2 * π / 1) / ((fun _ _ => (⟨0, 0, 20, 1, 1, 0⟩ : GridPoint)) j 0).k *
          Real.sin (π / 2)) ∧
    (∀ j, j < 1 - 1 →
      isWet ((fun _ _ => (⟨0, 0, 20, 1, 1, 0⟩ : GridPoint)) j 0) →
      snellConstant 1 (fun _ _ => (⟨0, 0, 20, 1, 1, 0⟩ : GridPoint))
        (2 * π / 1) (π / 2) 0 ≠ 0 →
      (updateWaveDirections 1 1 (fun _ _ => (⟨0, 0, 20, 1, 1, 0⟩ : GridPoint))
          1 (π / 2) j 0).alpha =
        (let ratio0 := snellConstant 1
            (fun _ _ => (⟨0, 0, 20, 1, 1, 0⟩ : GridPoint)) (2 * π / 1) (π / 2) 0 /
          ((2 * π / 1) /
            ((fun _ _ => (⟨0, 0, 20, 1, 1, 0⟩ : GridPoint)) j 0).k)
        let ratio := min 0.999 (max (-0.999) ratio0)
        if Real.cos (Real.arcsin ratio) ≤ 0 then
          (if 0 ≤ ratio0 then (1:ℝ) else -1) * (π / 2 - 0.01)
        else Real.arcsin ratio))) :=
  ⟨by norm_num, by norm_num, by norm_num,
    claim2_snell_marching 1 1 (fun _ _ => (⟨0, 0, 20, 1, 1, 0⟩ : GridPoint))
      1 (π / 2) (by norm_num) (by norm_num) 0 (by norm_num)⟩

/-- `|asin(clamp(r, -0.999, 0.999))| ≤ π/2 - 0.01`. -/
lemma arcsin_clamped_bound (r : ℝ) (h1 : -0.999 ≤ r) (h2 : r ≤ 0.999) :
    |Real.arcsin r| ≤ π / 2 - 0.01 := by
  have hcos : (0.999:ℝ) ≤ Real.sin (π / 2 - 0.01) := by
    rw [Real.sin_pi_div_two_sub]
    have := @Real.one_sub_sq_div_two_le_cos (0.01:ℝ)
    nlinarith
  have hrange1 : -(π / 2) ≤ π / 2 - (0.01:ℝ) := by
    nlinarith [Real.pi_gt_three]
  have hrange2 : π / 2 - (0.01:ℝ) ≤ π / 2 := by norm_num
  have hup : Real.arcsin r ≤ π / 2 - 0.01 := by
    calc Real.arcsin r ≤ Real.arcsin (Real.sin (π / 2 - 0.01)) :=
          Real.monotone_arcsin (by linarith)
      _ = π / 2 - 0.01 := Real.arcsin_sin hrange1 hrange2
  have hlo : -(π / 2 - 0.01) ≤ Real.arcsin r := by
    have h3 : Real.arcsin (-Real.sin (π / 2 - 0.01)) ≤ Real.arcsin r :=
      Real.monotone_arcsin (by linarith)
    rw [← Real.sin_neg, Real.arcsin_sin (by linarith) (by linarith)] at h3
    linarith
  exact abs_le.2 ⟨hlo, hup⟩

/-- **C8.**  No ill-defined angle or division reaches the outputs:
(a) a fully dry column (with zero initial angles, as produced by
`generateTerrain`) gets a zero Snell invariant and all-zero angles;
(b) the marching loop always stores an angle of magnitude at most
`π/2 - 0.01` — the `asin` argument is clamped into `[-0.999, 0.999]`
before use, and the defensive fallback produces `±(π/2 - 0.01)`;
(c) the wavefront interpolation ratio is guarded by the `1e-6` epsilon and
always lies in `[0, 1]` for ordered arc-length samples. -/
theorem claim8_no_nan (gy gx : ℕ) (grid : Grid) (T alpha0 : ℝ)
    (hgy : 0 < gy) (hgx : 0 < gx) :
    (∀ i, i < gx → (∀ j, j < gy → ¬ isWet (grid j i)) →
      (∀ j, j < gy → (grid j i).alpha = 0) →
      snellConstant gy grid (2 * π / T) alpha0 i = 0 ∧
      ∀ j, j < gy →
        (updateWaveDirections gy gx grid T alpha0 j i).alpha = 0) ∧
    (∀ j i, j < gy - 1 → i < gx →
      |(updateWaveDirections gy gx grid T alpha0 j i).alpha| ≤ π / 2 - 0.01) ∧
    (∀ currDist nextDist target : ℝ, nextDist ≤ target → target ≤ currDist →
      0 ≤ wavefrontRatio currDist nextDist target ∧
        wavefrontRatio currDist nextDist target ≤ 1) := by
  have hguard : ¬ (gy = 0 ∨ gx = 0) := by omega
  have hpihalf : (0:ℝ) ≤ π / 2 - 0.01 := by nlinarith [Real.pi_gt_three]
  refine ⟨?_, ?_, ?_⟩
  · intro i hi hdry halpha
    have hnone : findTopWet grid i gy = none :=
      (findTopWet_none_iff grid i gy).2 hdry
    have hsnell : snellConstant gy grid (2 * π / T) alpha0 i = 0 := by
      rw [snellConstant, hnone]
    refine ⟨hsnell, fun j hj => ?_⟩
    unfold updateWaveDirections
    rw [if_neg hguard]
    show analyticAlpha gy gx grid (2 * π / T) alpha0 j i = 0
    unfold analyticAlpha
    by_cases hcase : j < gy - 1 ∧ i < gx
    · rw [if_pos hcase]
      have hnd : (grid j i).h ≤ 0.1 ∨ (grid j i).k ≤ 0 := by
        have := hdry j hj
        unfold isWet at this
        push_neg at this
        by_cases hh : (grid j i).h ≤ 0.1
        · exact Or.inl hh
        · exact Or.inr (this (by linarith [not_le.1 hh]))
      simp only [hnd, if_true]
    · rw [if_neg hcase]
      have htop : ¬ (i < gx ∧ findTopWet grid i gy = some j) := by
        rintro ⟨-, hsome⟩
        rw [hnone] at hsome
        exact Option.noConfusion hsome
      rw [if_neg htop]
      exact halpha j hj
  · intro j i hj hi
    unfold updateWaveDirections
    rw [if_neg hguard]
    show |analyticAlpha gy gx grid (2 * π / T) alpha0 j i| ≤ π / 2 - 0.01
    unfold analyticAlpha
    rw [if_pos ⟨hj, hi⟩]
    dsimp only
    split
    · simpa using hpihalf
    · split
      · simpa using hpihalf
      · set ratio0 := snellConstant gy grid (2 * π / T) alpha0 i /
          (2 * π / T / (grid j i).k) with hr0
        have hclamp1 : (-0.999:ℝ) ≤ min 0.999 (max (-0.999) ratio0) := by
          rcases le_total (0.999:ℝ) (max (-0.999) ratio0) with hc | hc
          · rw [min_eq_left hc]; norm_num
          · rw [min_eq_right hc]; exact le_max_left _ _
        have hclamp2 : min 0.999 (max (-0.999) ratio0) ≤ 0.999 :=
          min_le_left _ _
        have harc := arcsin_clamped_bound _ hclamp1 hclamp2
        split
        · rename_i hcos
          split
          · rw [abs_of_nonneg (by linarith [hpihalf] : (0:ℝ) ≤ 1 * (π/2 - 0.01))]
            linarith [hpihalf]
          · rw [show (-1:ℝ) * (π/2 - 0.01) = -(π/2 - 0.01) by ring, abs_neg,
              abs_of_nonneg hpihalf]
        · exact harc
  · intro currDist nextDist target h1 h2
    unfold wavefrontRatio
    dsimp only
    split
    · rename_i hden
      constructor
      · apply div_nonneg (by linarith)
        linarith
      · rw [div_le_one (by linarith)]
        linarith
    · norm_num

/-- Witness for `claim8_no_nan` on a 1×1 dry grid. -/
theorem claim8_witness :
    0 < 1 ∧ 0 < 1 ∧
    ((∀ i, i < 1 →
      (∀ j, j < 1 → ¬ isWet ((fun _ _ => (⟨0, 0, 0, 0, 0, 0⟩ : GridPoint)) j i)) →
      (∀ j, j < 1 → ((fun _ _ => (⟨0, 0, 0, 0, 0, 0⟩ : GridPoint)) j i).alpha = 0) →
      snellConstant 1 (fun _ _ => (⟨0, 0, 0, 0, 0, 0⟩ : GridPoint))
        (2 * π / 1) 0 i = 0 ∧
      ∀ j, j < 1 →
        (updateWaveDirections 1 1 (fun _ _ => (⟨0, 0, 0, 0, 0, 0⟩ : GridPoint))
          1 0 j i).alpha = 0) ∧
    (∀ j i, j < 1 - 1 → i < 1 →
      |(updateWaveDirections 1 1 (fun _ _ => (⟨0, 0, 0, 0, 0, 0⟩ : GridPoint))
        1 0 j i).alpha| ≤ π / 2 - 0.01) ∧
    (∀ currDist nextDist target : ℝ, nextDist ≤ target → target ≤ currDist →
      0 ≤ wavefrontRatio currDist nextDist target ∧
        wavefrontRatio currDist nextDist target ≤ 1)) :=
  ⟨by norm_num, by norm_num,
    claim8_no_nan 1 1 (fun _ _ => (⟨0, 0, 0, 0, 0, 0⟩ : GridPoint)) 1 0
      (by norm_num) (by norm_num)⟩

lemma eqExceptAlpha_refl (g : Grid) : eqExceptAlpha g g :=
  fun _ _ => ⟨rfl, rfl, rfl, rfl, rfl⟩

lemma eqExceptAlpha_trans {g1 g2 g3 : Grid} (h12 : eqExceptAlpha g1 g2)
    (h23 : eqExceptAlpha g2 g3) : eqExceptAlpha g1 g3 := by
  intro j i
  obtain ⟨a1, b1, c1, d1, e1⟩ := h12 j i
  obtain ⟨a2, b2, c2, d2, e2⟩ := h23 j i
  exact ⟨a2.trans a1, b2.trans b1, c2.trans c1, d2.trans d1, e2.trans e1⟩

lemma fdmCell_frame (gy gx : ℕ) (dx dy alpha0 : ℝ) (g : Grid) (j i : ℕ) :
    (fdmCell gy gx dx dy alpha0 g j i).x = (g j i).x ∧
    (fdmCell gy gx dx dy alpha0 g j i).y = (g j i).y ∧
    (fdmCell gy gx dx dy alpha0 g j i).h = (g j i).h ∧
    (fdmCell gy gx dx dy alpha0 g j i).k = (g j i).k ∧
    (fdmCell gy gx dx dy alpha0 g j i).c = (g j i).c := by
  unfold fdmCell
  dsimp only
  split
  · exact ⟨rfl, rfl, rfl, rfl, rfl⟩
  · exact ⟨rfl, rfl, rfl, rfl, rfl⟩

lemma eqExceptAlpha_writeCell (gy gx : ℕ) (dx dy alpha0 : ℝ) (g : Grid)
    (j i : ℕ) :
    eqExceptAlpha g (writeCell g j i (fdmCell gy gx dx dy alpha0 g j i)) := by
  intro j' i'
  unfold writeCell
  split
  · rename_i hji
    obtain ⟨hj, hi⟩ := hji
    subst hj; subst hi
    exact fdmCell_frame gy gx dx dy alpha0 g j' i'
  · exact ⟨rfl, rfl, rfl, rfl, rfl⟩

lemma eqExceptAlpha_foldl {α : Type} (F : Grid → α → Grid)
    (hF : ∀ g a, eqExceptAlpha g (F g a)) :
    ∀ (l : List α) (g : Grid), eqExceptAlpha g (l.foldl F g)
  | [], _ => eqExceptAlpha_refl _
  | a :: l, g =>
      eqExceptAlpha_trans (hF g a) (eqExceptAlpha_foldl F hF l (F g a))

lemma fdmRow_eqExceptAlpha (gy gx : ℕ) (dx dy alpha0 : ℝ) (j : ℕ)
    (g : Grid) : eqExceptAlpha g (fdmRow gy gx dx dy alpha0 j g) :=
  eqExceptAlpha_foldl _
    (fun g' i => eqExceptAlpha_writeCell gy gx dx dy alpha0 g' j i)
    (List.range gx) g

lemma fdmMarch_eqExceptAlpha (gy gx : ℕ) (dx dy alpha0 : ℝ) (L : List ℕ)
    (g : Grid) :
    eqExceptAlpha g (L.foldl (fun g' j => fdmRow gy gx dx dy alpha0 j g') g) :=
  eqExceptAlpha_foldl _
    (fun g' j => fdmRow_eqExceptAlpha gy gx dx dy alpha0 j g') L g

lemma updateWaveDirectionsFDM_eqExceptAlpha (gy gx : ℕ) (grid : Grid)
    (T alpha0 : ℝ) :
    eqExceptAlpha grid (updateWaveDirectionsFDM gy gx grid T alpha0) := by
  unfold updateWaveDirectionsFDM
  split
  · exact eqExceptAlpha_refl grid
  · dsimp only
    have h1 : eqExceptAlpha grid (fun j i =>
        if j = gy - 1 ∧ i < gx then { grid j i with alpha := alpha0 }
        else grid j i) := by
      intro j i
      dsimp only
      split
      · exact ⟨rfl, rfl, rfl, rfl, rfl⟩
      · exact ⟨rfl, rfl, rfl, rfl, rfl⟩
    exact eqExceptAlpha_trans h1
      (fdmMarch_eqExceptAlpha gy gx _ _ alpha0 _ _)

/-- Cells whose row is not `j`, or whose column is not visited, are
untouched by the column fold of `fdmRow`. -/
lemma foldlCols_not_target (gy gx : ℕ) (dx dy alpha0 : ℝ) (j : ℕ) :
    ∀ (l : List ℕ) (g : Grid) (j' i' : ℕ), (j' ≠ j ∨ i' ∉ l) →
      (l.foldl
        (fun g' i => writeCell g' j i (fdmCell gy gx dx dy alpha0 g' j i)) g)
        j' i' = g j' i'
  | [], _, _, _, _ => rfl
  | i₀ :: l, g, j', i', h => by
      have hstep : writeCell g j i₀ (fdmCell gy gx dx dy alpha0 g j i₀) j' i'
          = g j' i' := by
        apply if_neg
        rintro ⟨rfl, rfl⟩
        rcases h with h | h
        · exact h rfl
        · exact h (List.mem_cons_self _ _)
      have hrec := foldlCols_not_target gy gx dx dy alpha0 j l
        (writeCell g j i₀ (fdmCell gy gx dx dy alpha0 g j i₀)) j' i'
        (by
          rcases h with h | h
          · exact Or.inl h
          · exact Or.inr fun hm => h (List.mem_cons_of_mem _ hm))
      rw [List.foldl_cons, hrec, hstep]

lemma fdmRow_ne (gy gx : ℕ) (dx dy alpha0 : ℝ) (j : ℕ) (g : Grid)
    {j' : ℕ} (hne : j' ≠ j) (i' : ℕ) :
    fdmRow gy gx dx dy alpha0 j g j' i' = g j' i' :=
  foldlCols_not_target gy gx dx dy alpha0 j (List.range gx) g j' i'
    (Or.inl hne)

/-- Rows not visited by the marching fold are untouched. -/
lemma fdmMarch_not_mem (gy gx : ℕ) (dx dy alpha0 : ℝ) :
    ∀ (L : List ℕ) (g : Grid) (j' : ℕ), j' ∉ L → ∀ i',
      (L.foldl (fun g' j => fdmRow gy gx dx dy alpha0 j g') g) j' i'
        = g j' i'
  | [], _, _, _, _ => rfl
  | j₀ :: L, g, j', h, i' => by
      have hne : j' ≠ j₀ := fun hh => h (hh ▸ List.mem_cons_self _ _)
      have hrec := fdmMarch_not_mem gy gx dx dy alpha0 L
        (fdmRow gy gx dx dy alpha0 j₀ g) j'
        (fun hm => h (List.mem_cons_of_mem _ hm)) i'
      rw [List.foldl_cons, hrec, fdmRow_ne gy gx dx dy alpha0 j₀ g hne]

/-- A dry cell of row `j` is set to angle `0` by the row pass
(lines 390-393). -/
lemma fdmRow_dry_col (gy gx : ℕ) (dx dy alpha0 : ℝ) (j : ℕ) :
    ∀ (l : List ℕ), l.Nodup → ∀ (g : Grid) (i : ℕ), i ∈ l →
      ((g j i).h ≤ 0.1 ∨ (g j i).k ≤ 0) →
      ((l.foldl
        (fun g' i' => writeCell g' j i' (fdmCell gy gx dx dy alpha0 g' j i')) g)
        j i).alpha = 0
  | [], _, _, _, hmem, _ => absurd hmem (List.not_mem_nil _)
  | i₀ :: l, hnd, g, i, hmem, hdry => by
      rw [List.foldl_cons]
      by_cases hii : i = i₀
      · subst hii
        have hnotmem : i ∉ l := (List.nodup_cons.1 hnd).1
        rw [foldlCols_not_target gy gx dx dy alpha0 j l _ j i (Or.inr hnotmem)]
        show (writeCell g j i (fdmCell gy gx dx dy alpha0 g j i) j i).alpha = 0
        rw [show writeCell g j i (fdmCell gy gx dx dy alpha0 g j i) j i
            = fdmCell gy gx dx dy alpha0 g j i from if_pos ⟨rfl, rfl⟩]
        unfold fdmCell
        dsimp only
        rw [if_pos hdry]
      · have hmem' : i ∈ l := (List.mem_cons.1 hmem).resolve_left hii
        have hfr := eqExceptAlpha_writeCell gy gx dx dy alpha0 g j i₀ j i
        exact fdmRow_dry_col gy gx dx dy alpha0 j l (List.nodup_cons.1 hnd).2
          _ i hmem'
          (by
            rcases hdry with hdry | hdry
            · exact Or.inl (hfr.2.2.1 ▸ hdry)
            · exact Or.inr (hfr.2.2.2.1 ▸ hdry))

/-- A dry cell of a visited row ends with angle `0` after the whole
marching fold. -/
lemma fdmMarch_dry (gy gx : ℕ) (dx dy alpha0 : ℝ) :
    ∀ (L : List ℕ), L.Nodup → ∀ (g : Grid) (j i : ℕ), j ∈ L → i < gx →
      ((g j i).h ≤ 0.1 ∨ (g j i).k ≤ 0) →
      ((L.foldl (fun g' j' => fdmRow gy gx dx dy alpha0 j' g') g) j i).alpha
        = 0
  | [], _, _, _, _, hmem, _, _ => absurd hmem (List.not_mem_nil _)
  | j₀ :: L, hnd, g, j, i, hmem, hi, hdry => by
      rw [List.foldl_cons]
      by_cases hjj : j = j₀
      · subst hjj
        have hnotmem : j ∉ L := (List.nodup_cons.1 hnd).1
        rw [fdmMarch_not_mem gy gx dx dy alpha0 L _ j hnotmem i]
        exact fdmRow_dry_col gy gx dx dy alpha0 j (List.range gx)
          (List.nodup_range gx) g i (List.mem_range.2 hi) hdry
      · have hmem' : j ∈ L := (List.mem_cons.1 hmem).resolve_left hjj
        have hfr := fdmRow_eqExceptAlpha gy gx dx dy alpha0 j₀ g j i
        exact fdmMarch_dry gy gx dx dy alpha0 L (List.nodup_cons.1 hnd).2
          _ j i hmem' hi
          (by
            rcases hdry with hdry | hdry
            · exact Or.inl (hfr.2.2.1 ▸ hdry)
            · exact Or.inr (hfr.2.2.2.1 ▸ hdry))

/-- The deep-water row of the FDM pass: every cell, wet or dry, gets
exactly `α₀` and keeps its other fields (lines 380-382; the marching loop
never revisits row `gy - 1`). -/
lemma fdmTop (gy gx : ℕ) (grid : Grid) (T alpha0 : ℝ) (hgy : 0 < gy)
    {i : ℕ} (hi : i < gx) :
    updateWaveDirectionsFDM gy gx grid T alpha0 (gy - 1) i
      = { grid (gy - 1) i with alpha := alpha0 } := by
  have hguard : ¬ (gy = 0 ∨ gx = 0) := by omega
  unfold updateWaveDirectionsFDM
  rw [if_neg hguard]
  dsimp only
  have hnotmem : gy - 1 ∉ (List.range (gy - 1)).reverse := by
    intro hm
    exact absurd (List.mem_range.1 (List.mem_reverse.1 hm)) (lt_irrefl _)
  rw [fdmMarch_not_mem gy gx _ _ alpha0 _ _ _ hnotmem]
  exact if_pos ⟨rfl, hi⟩

/-- A dry cell strictly below the deep-water row ends the FDM pass with
angle `0`. -/
lemma fdm_dry_below (gy gx : ℕ) (grid : Grid) (T alpha0 : ℝ)
    {j i : ℕ} (hj : j < gy - 1) (hi : i < gx)
    (hdry : (grid j i).h ≤ 0.1 ∨ (grid j i).k ≤ 0) :
    (updateWaveDirectionsFDM gy gx grid T alpha0 j i).alpha = 0 := by
  have hguard : ¬ (gy = 0 ∨ gx = 0) := by omega
  unfold updateWaveDirectionsFDM
  rw [if_neg hguard]
  dsimp only
  have hmem : j ∈ (List.range (gy - 1)).reverse :=
    List.mem_reverse.2 (List.mem_range.2 hj)
  have hne : j ≠ gy - 1 := by omega
  apply fdmMarch_dry gy gx _ _ alpha0 _
    (List.nodup_reverse.2 (List.nodup_range (gy - 1))) _ j i hmem hi
  rw [if_neg (by rintro ⟨rfl, -⟩; exact hne rfl :
    ¬ (j = gy - 1 ∧ i < gx))]
  exact hdry

lemma updateWaveNumbers_h (gy gx : ℕ) (grid : Grid) (T : ℝ) (j i : ℕ) :
    (updateWaveNumbers gy gx grid T j i).h = (grid j i).h := by
  unfold updateWaveNumbers
  dsimp only
  split
  · split
    · rfl
    · rfl
  · rfl

lemma updateWaveNumbers_dry (gy gx : ℕ) (grid : Grid) (T : ℝ) {j i : ℕ}
    (hj : j < gy) (hi : i < gx) (hdry : (grid j i).h ≤ 0.1) :
    updateWaveNumbers gy gx grid T j i = { grid j i with k := 0, c := 0 } := by
  unfold updateWaveNumbers
  rw [if_pos ⟨hj, hi⟩]
  dsimp only
  rw [if_neg (not_lt.2 hdry)]

lemma updateWaveNumbers_wet (gy gx : ℕ) (grid : Grid) (T : ℝ) {j i : ℕ}
    (hj : j < gy) (hi : i < gx) (hwet : (grid j i).h > 0.1) :
    updateWaveNumbers gy gx grid T j i =
      { grid j i with k := solveWaveNumber (grid j i).h T,
                      c := 2 * π / T / solveWaveNumber (grid j i).h T } := by
  unfold updateWaveNumbers
  rw [if_pos ⟨hj, hi⟩]
  dsimp only
  rw [if_pos hwet]

lemma updateWaveDirections_alpha_only (gy gx : ℕ) (grid : Grid)
    (T alpha0 : ℝ) (j i : ℕ) :
    (updateWaveDirections gy gx grid T alpha0 j i).x = (grid j i).x ∧
    (updateWaveDirections gy gx grid T alpha0 j i).y = (grid j i).y ∧
    (updateWaveDirections gy gx grid T alpha0 j i).h = (grid j i).h ∧
    (updateWaveDirections gy gx grid T alpha0 j i).k = (grid j i).k ∧
    (updateWaveDirections gy gx grid T alpha0 j i).c = (grid j i).c := by
  unfold updateWaveDirections
  split
  · exact ⟨rfl, rfl, rfl, rfl, rfl⟩
  · exact ⟨rfl, rfl, rfl, rfl, rfl⟩

/-- A dry cell whose previous angle was `0` keeps angle `0` through the
analytic pass: below the top row it is written `0` explicitly, and a dry
top-row cell can never be the column's first wet cell. -/
lemma analytic_dry_alpha (gy gx : ℕ) (grid : Grid) (T alpha0 : ℝ)
    {j i : ℕ} (hj : j < gy) (hi : i < gx)
    (hdry : (grid j i).h ≤ 0.1) (ha : (grid j i).alpha = 0) :
    (updateWaveDirections gy gx grid T alpha0 j i).alpha = 0 := by
  have hguard : ¬ (gy = 0 ∨ gx = 0) := by omega
  unfold updateWaveDirections
  rw [if_neg hguard]
  show analyticAlpha gy gx grid (2 * π / T) alpha0 j i = 0
  unfold analyticAlpha
  by_cases hcase : j < gy - 1 ∧ i < gx
  · rw [if_pos hcase]
    dsimp only
    rw [if_pos (Or.inl hdry)]
  · rw [if_neg hcase]
    have htop : ¬ (i < gx ∧ findTopWet grid i gy = some j) := by
      rintro ⟨-, hsome⟩
      obtain ⟨-, hwet, -⟩ := (findTopWet_some_iff grid i gy j).1 hsome
      exact absurd hwet.1 (not_lt.2 hdry)
    rw [if_neg htop]
    exact ha

/-- **C4 (amended).**  After `updateWaveNumbers` and either direction pass
(from a terrain grid with all-zero initial angles): every in-range dry cell
(`h ≤ 0.1`) has `k = c = 0` in both modes and `α = 0` in the analytic mode;
in the FDM mode dry cells below the deep-water row also get `α = 0`, but
every deep-water-row cell — dry ones included — is overwritten with `α₀`;
and every in-range wet cell (`h > 0.1`) has `k > 0`. -/
theorem claim4_amended (gy gx : ℕ) (grid0 : Grid) (T alpha0 : ℝ)
    (hT : 0 < T) (halpha : ∀ j i, (grid0 j i).alpha = 0) :
    ∀ j i, j < gy → i < gx →
      ((updateWaveNumbers gy gx grid0 T j i).h ≤ 0.1 →
        (updateWaveNumbers gy gx grid0 T j i).k = 0 ∧
        (updateWaveNumbers gy gx grid0 T j i).c = 0 ∧
        (updateWaveDirections gy gx (updateWaveNumbers gy gx grid0 T) T
          alpha0 j i).k = 0 ∧
        (updateWaveDirections gy gx (updateWaveNumbers gy gx grid0 T) T
          alpha0 j i).c = 0 ∧
        (updateWaveDirections gy gx (updateWaveNumbers gy gx grid0 T) T
          alpha0 j i).alpha = 0 ∧
        (updateWaveDirectionsFDM gy gx (updateWaveNumbers gy gx grid0 T) T
          alpha0 j i).k = 0 ∧
        (updateWaveDirectionsFDM gy gx (updateWaveNumbers gy gx grid0 T) T
          alpha0 j i).c = 0 ∧
        (j < gy - 1 →
          (updateWaveDirectionsFDM gy gx (updateWaveNumbers gy gx grid0 T) T
            alpha0 j i).alpha = 0) ∧
        (j = gy - 1 →
          (updateWaveDirectionsFDM gy gx (updateWaveNumbers gy gx grid0 T) T
            alpha0 j i).alpha = alpha0)) ∧
      ((updateWaveNumbers gy gx grid0 T j i).h > 0.1 →
        (updateWaveNumbers gy gx grid0 T j i).k > 0) := by
  intro j i hj hi
  constructor
  · intro hdry
    have hh0 : (grid0 j i).h ≤ 0.1 := by
      rwa [updateWaveNumbers_h] at hdry
    have hcell : updateWaveNumbers gy gx grid0 T j i
        = { grid0 j i with k := 0, c := 0 } :=
      updateWaveNumbers_dry gy gx grid0 T hj hi hh0
    have hk : (updateWaveNumbers gy gx grid0 T j i).k = 0 := by rw [hcell]
    have hc : (updateWaveNumbers gy gx grid0 T j i).c = 0 := by rw [hcell]
    have hh1 : (updateWaveNumbers gy gx grid0 T j i).h ≤ 0.1 := by
      rw [hcell]; exact hh0
    have ha1 : (updateWaveNumbers gy gx grid0 T j i).alpha = 0 := by
      rw [hcell]; exact halpha j i
    have hA := updateWaveDirections_alpha_only gy gx
      (updateWaveNumbers gy gx grid0 T) T alpha0 j i
    have hF := updateWaveDirectionsFDM_eqExceptAlpha gy gx
      (updateWaveNumbers gy gx grid0 T) T alpha0 j i
    refine ⟨hk, hc, hA.2.2.2.1.trans hk, hA.2.2.2.2.trans hc,
      analytic_dry_alpha gy gx _ T alpha0 hj hi hh1 ha1,
      hF.2.2.2.1.trans hk, hF.2.2.2.2.trans hc, ?_, ?_⟩
    · intro hjlt
      exact fdm_dry_below gy gx _ T alpha0 hjlt hi (Or.inl hh1)
    · intro hjtop
      subst hjtop
      rw [fdmTop gy gx _ T alpha0 (by omega) hi]
  · intro hwet
    have hh0 : (grid0 j i).h > 0.1 := by
      rwa [updateWaveNumbers_h] at hwet
    rw [updateWaveNumbers_wet gy gx grid0 T hj hi hh0]
    show 0 < solveWaveNumber (grid0 j i).h T
    exact solveWaveNumber_pos (by linarith) hT

/-- Witness for `claim4_amended` on a 2×2 all-dry terrain. -/
theorem claim4_amended_witness :
    (0:ℝ) < 1 ∧
    (∀ j i, (generateTerrain ⟨1, 1, 2, 2, 0.01, 0, 0, none⟩ j i).alpha = 0) ∧
    (∀ j i, j < 2 → i < 2 →
      ((updateWaveNumbers 2 2
          (generateTerrain ⟨1, 1, 2, 2, 0.01, 0, 0, none⟩) 1 j i).h ≤ 0.1 →
        (updateWaveNumbers 2 2
          (generateTerrain ⟨1, 1, 2, 2, 0.01, 0, 0, none⟩) 1 j i).k = 0 ∧
        (updateWaveNumbers 2 2
          (generateTerrain ⟨1, 1, 2, 2, 0.01, 0, 0, none⟩) 1 j i).c = 0 ∧
        (updateWaveDirections 2 2 (updateWaveNumbers 2 2
          (generateTerrain ⟨1, 1, 2, 2, 0.01, 0, 0, none⟩) 1) 1 1 j i).k = 0 ∧
        (updateWaveDirections 2 2 (updateWaveNumbers 2 2
          (generateTerrain ⟨1, 1, 2, 2, 0.01, 0, 0, none⟩) 1) 1 1 j i).c = 0 ∧
        (updateWaveDirections 2 2 (updateWaveNumbers 2 2
          (generateTerrain ⟨1, 1, 2, 2, 0.01, 0, 0, none⟩) 1) 1 1 j i).alpha
            = 0 ∧
        (updateWaveDirectionsFDM 2 2 (updateWaveNumbers 2 2
          (generateTerrain ⟨1, 1, 2, 2, 0.01, 0, 0, none⟩) 1) 1 1 j i).k = 0 ∧
        (updateWaveDirectionsFDM 2 2 (updateWaveNumbers 2 2
          (generateTerrain ⟨1, 1, 2, 2, 0.01, 0, 0, none⟩) 1) 1 1 j i).c = 0 ∧
        (j < 2 - 1 →
          (updateWaveDirectionsFDM 2 2 (updateWaveNumbers 2 2
            (generateTerrain ⟨1, 1, 2, 2, 0.01, 0, 0, none⟩) 1) 1 1 j i).alpha
              = 0) ∧
        (j = 2 - 1 →
          (updateWaveDirectionsFDM 2 2 (updateWaveNumbers 2 2
            (generateTerrain ⟨1, 1, 2, 2, 0.01, 0, 0, none⟩) 1) 1 1 j i).alpha
              = 1)) ∧
      ((updateWaveNumbers 2 2
          (generateTerrain ⟨1, 1, 2, 2, 0.01, 0, 0, none⟩) 1 j i).h > 0.1 →
        (updateWaveNumbers 2 2
          (generateTerrain ⟨1, 1, 2, 2, 0.01, 0, 0, none⟩) 1 j i).k > 0)) :=
  ⟨by norm_num, fun j i => rfl,
    claim4_amended 2 2 (generateTerrain ⟨1, 1, 2, 2, 0.01, 0, 0, none⟩) 1 1
      (by norm_num) (fun j i => rfl)⟩

/-- The counterexample coastline: with `bayDepth = capeExtension = 0` both
Gaussian terms vanish and the coastline is flat at `0.15 · height`. -/
lemma coastCex (x : ℝ) :
    coastlineFunction x ⟨1, 1, 2, 2, 0.01, 0, 0, none⟩ = 0.15 := by
  unfold coastlineFunction
  norm_num [min_def, max_def]

lemma terrainCex10_h :
    (generateTerrain ⟨1, 1, 2, 2, 0.01, 0, 0, none⟩ 1 0).h = 0.0085 := by
  unfold generateTerrain
  dsimp only
  rw [coastCex]
  norm_num

lemma terrainCex00_h :
    (generateTerrain ⟨1, 1, 2, 2, 0.01, 0, 0, none⟩ 0 0).h = 0 := by
  unfold generateTerrain
  dsimp only
  rw [coastCex]
  norm_num

lemma wnCex10 :
    updateWaveNumbers 2 2 (generateTerrain ⟨1, 1, 2, 2, 0.01, 0, 0, none⟩)
        1 1 0
      = { generateTerrain ⟨1, 1, 2, 2, 0.01, 0, 0, none⟩ 1 0 with
          k := 0, c := 0 } :=
  updateWaveNumbers_dry 2 2 _ 1 (by norm_num) (by norm_num)
    (by rw [terrainCex10_h]; norm_num)

lemma wnCex00 :
    updateWaveNumbers 2 2 (generateTerrain ⟨1, 1, 2, 2, 0.01, 0, 0, none⟩)
        1 0 0
      = { generateTerrain ⟨1, 1, 2, 2, 0.01, 0, 0, none⟩ 0 0 with
          k := 0, c := 0 } :=
  updateWaveNumbers_dry 2 2 _ 1 (by norm_num) (by norm_num)
    (by rw [terrainCex00_h]; norm_num)

/-- **C4, counterexample.**  On a 2×2 terrain that is dry everywhere
(maximum depth `0.0085 m ≤ 0.1 m`), running `updateWaveNumbers` and then
`updateWaveDirectionsFDM` with `α₀ = 1` leaves the deep-water-row cell
`(1,0)` dry yet with `α = α₀ = 1 ≠ 0`: the FDM pass writes `α₀` to the
whole top row unconditionally (lines 380-382), so the claimed invariant
`h ≤ 0.1 ⇒ α = 0` fails after the FDM mode. -/
theorem claim4_counterexample :
    (updateWaveDirectionsFDM 2 2 (updateWaveNumbers 2 2
        (generateTerrain ⟨1, 1, 2, 2, 0.01, 0, 0, none⟩) 1) 1 1 1 0).h
      ≤ 0.1 ∧
    (updateWaveDirectionsFDM 2 2 (updateWaveNumbers 2 2
        (generateTerrain ⟨1, 1, 2, 2, 0.01, 0, 0, none⟩) 1) 1 1 1 0).alpha
      ≠ 0 := by
  have htop := @fdmTop 2 2 (updateWaveNumbers 2 2
    (generateTerrain ⟨1, 1, 2, 2, 0.01, 0, 0, none⟩) 1) 1 1
    (by norm_num) 0 (by norm_num)
  rw [show (2:ℕ) - 1 = 1 from rfl] at htop
  rw [htop]
  constructor
  · show (updateWaveNumbers 2 2
      (generateTerrain ⟨1, 1, 2, 2, 0.01, 0, 0, none⟩) 1 1 0).h ≤ 0.1
    rw [updateWaveNumbers_h, terrainCex10_h]
    norm_num
  · show (1:ℝ) ≠ 0
    norm_num

/-- **C5, counterexample.**  On the same all-dry 2×2 terrain, the analytic
pass with `α₀ = 1` leaves the deep-water-row cell `(1,0)` with `α = 0`,
not `α₀`: the scan assigns `α₀` only to the first *wet* cell of a column,
and a fully dry column gets no assignment at all, so "every cell of the
top row has `α = α₀` in both modes" fails in the analytic mode. -/
theorem claim5_counterexample :
    (updateWaveDirections 2 2 (updateWaveNumbers 2 2
        (generateTerrain ⟨1, 1, 2, 2, 0.01, 0, 0, none⟩) 1) 1 1 1 0).alpha
      ≠ 1 := by
  have hw1 : ¬ isWet (updateWaveNumbers 2 2
      (generateTerrain ⟨1, 1, 2, 2, 0.01, 0, 0, none⟩) 1 1 0) := by
    rw [wnCex10]
    rintro ⟨-, hk⟩
    exact absurd hk (by norm_num)
  have hw0 : ¬ isWet (updateWaveNumbers 2 2
      (generateTerrain ⟨1, 1, 2, 2, 0.01, 0, 0, none⟩) 1 0 0) := by
    rw [wnCex00]
    rintro ⟨-, hk⟩
    exact absurd hk (by norm_num)
  have hnone : findTopWet (updateWaveNumbers 2 2
      (generateTerrain ⟨1, 1, 2, 2, 0.01, 0, 0, none⟩) 1) 0 2 = none := by
    apply (findTopWet_none_iff _ 0 2).2
    intro j hj
    interval_cases j
    · exact hw0
    · exact hw1
  have hguard : ¬ ((2:ℕ) = 0 ∨ (2:ℕ) = 0) := by norm_num
  unfold updateWaveDirections
  rw [if_neg hguard]
  show analyticAlpha 2 2 (updateWaveNumbers 2 2
    (generateTerrain ⟨1, 1, 2, 2, 0.01, 0, 0, none⟩) 1) (2 * π / 1) 1 1 0 ≠ 1
  unfold analyticAlpha
  rw [if_neg (by norm_num : ¬ ((1:ℕ) < 2 - 1 ∧ (0:ℕ) < 2))]
  rw [if_neg (by
    rintro ⟨-, hsome⟩
    rw [hnone] at hsome
    exact Option.noConfusion hsome :
      ¬ ((0:ℕ) < 2 ∧ findTopWet (updateWaveNumbers 2 2
        (generateTerrain ⟨1, 1, 2, 2, 0.01, 0, 0, none⟩) 1) 0 2 = some 1))]
  rw [wnCex10]
  show (generateTerrain ⟨1, 1, 2, 2, 0.01, 0, 0, none⟩ 1 0).alpha ≠ 1
  rw [show (generateTerrain ⟨1, 1, 2, 2, 0.01, 0, 0, none⟩ 1 0).alpha = 0
    from rfl]
  norm_num

/-- **C5 (amended).**  The FDM pass sets every deep-water-row cell's angle
to exactly `α₀`; the analytic pass guarantees this only for *wet*
deep-water-row cells (a dry top cell keeps its previous angle). -/
theorem claim5_amended (gy gx : ℕ) (grid : Grid) (T alpha0 : ℝ)
    (hgy : 0 < gy) (i : ℕ) (hi : i < gx) :
    (updateWaveDirectionsFDM gy gx grid T alpha0 (gy - 1) i).alpha = alpha0 ∧
    (isWet (grid (gy - 1) i) →
      (updateWaveDirections gy gx grid T alpha0 (gy - 1) i).alpha
        = alpha0) := by
  constructor
  · rw [fdmTop gy gx grid T alpha0 hgy hi]
  · intro hwet
    have hguard : ¬ (gy = 0 ∨ gx = 0) := by omega
    unfold updateWaveDirections
    rw [if_neg hguard]
    show analyticAlpha gy gx grid (2 * π / T) alpha0 (gy - 1) i = alpha0
    have hfind : findTopWet grid i gy = some (gy - 1) :=
      (findTopWet_some_iff grid i gy (gy - 1)).2
        ⟨by omega, hwet, fun j' h1 h2 => (by omega : False).elim⟩
    unfold analyticAlpha
    rw [if_neg (by omega : ¬ (gy - 1 < gy - 1 ∧ i < gx))]
    rw [if_pos ⟨hi, hfind⟩]

/-- Witness for `claim5_amended` on a 1×1 wet grid with `α₀ = 5`. -/
theorem claim5_amended_witness :
    0 < 1 ∧ (0:ℕ) < 1 ∧
    ((updateWaveDirectionsFDM 1 1
        (fun _ _ => (⟨0, 0, 20, 2, 3, 0⟩ : GridPoint)) 1 5 (1 - 1) 0).alpha
          = 5 ∧
      (isWet ((fun _ _ => (⟨0, 0, 20, 2, 3, 0⟩ : GridPoint)) (1 - 1) 0) →
        (updateWaveDirections 1 1
          (fun _ _ => (⟨0, 0, 20, 2, 3, 0⟩ : GridPoint)) 1 5 (1 - 1) 0).alpha
            = 5)) :=
  ⟨by norm_num, by norm_num,
    claim5_amended 1 1 (fun _ _ => (⟨0, 0, 20, 2, 3, 0⟩ : GridPoint)) 1 5
      (by norm_num) 0 (by norm_num)⟩

lemma foldl_max_init_le (f : ℕ → ℝ) :
    ∀ (l : List ℕ) (m : ℝ),
      m ≤ l.foldl (fun m' i => max m' |f i|) m
  | [], _ => le_refl _
  | a :: l, m =>
      le_trans (le_max_left m |f a|) (foldl_max_init_le f l (max m |f a|))

lemma foldl_max_mem_le (f : ℕ → ℝ) :
    ∀ (l : List ℕ) (m : ℝ) (i : ℕ), i ∈ l →
      |f i| ≤ l.foldl (fun m' i' => max m' |f i'|) m
  | [], _, _, hmem => absurd hmem (List.not_mem_nil _)
  | a :: l, m, i, hmem => by
      rw [List.foldl_cons]
      by_cases hia : i = a
      · subst hia
        exact le_trans (le_max_right m |f i|) (foldl_max_init_le f l _)
      · exact foldl_max_mem_le f l _ i ((List.mem_cons.1 hmem).resolve_left hia)

lemma maxAbsCurvature_nonneg (coastline : List CoastlinePoint) (step : ℝ) :
    0 ≤ maxAbsCurvature coastline step :=
  foldl_max_init_le _ (List.range coastline.length) 0

lemma abs_curv_le_maxAbs (coastline : List CoastlinePoint) (step : ℝ)
    {idx : ℕ} (hidx : idx < coastline.length) :
    |curvAt coastline step idx| ≤ maxAbsCurvature coastline step :=
  foldl_max_mem_le _ (List.range coastline.length) 0 idx
    (List.mem_range.2 hidx)

lemma growRun_peak_ge (coastline : List CoastlinePoint)
    (step sign threshold : ℝ) :
    ∀ (fuel : ℕ) (s : GrowState), s.peakStrength ≤
      (growRun coastline step sign threshold fuel s).peakStrength
  | 0, _ => le_refl _
  | fuel + 1, s => by
      unfold growRun
      split
      · have h1 := growRun_peak_ge coastline step sign threshold fuel
          { segmentEnd := s.segmentEnd + 1,
            weightedSum := s.weightedSum +
              (coastline.getD s.segmentEnd ⟨0, 0⟩).x *
                |curvAt coastline step s.segmentEnd|,
            weightTotal := s.weightTotal +
              |curvAt coastline step s.segmentEnd|,
            peakStrength := max s.peakStrength
              |curvAt coastline step s.segmentEnd| }
        exact le_trans (le_max_left _ _) h1
      · exact le_refl _

lemma growRun_peak_le (coastline : List CoastlinePoint)
    (step sign threshold maxAbs : ℝ)
    (hbound : ∀ idx, idx < coastline.length →
      |curvAt coastline step idx| ≤ maxAbs) :
    ∀ (fuel : ℕ) (s : GrowState), s.peakStrength ≤ maxAbs →
      (growRun coastline step sign threshold fuel s).peakStrength ≤ maxAbs
  | 0, _, hs => hs
  | fuel + 1, s, hs => by
      unfold growRun
      split
      · rename_i hcond
        apply growRun_peak_le coastline step sign threshold maxAbs hbound fuel
        exact max_le hs (hbound s.segmentEnd (by omega))
      · exact hs

lemma detectGo_spec (coastline : List CoastlinePoint)
    (step maxAbs threshold : ℝ) (hmax0 : 0 < maxAbs)
    (hthr : threshold = maxAbs * 0.18)
    (hbound : ∀ idx, idx < coastline.length →
      |curvAt coastline step idx| ≤ maxAbs) :
    ∀ (fuel idx : ℕ) (f : CoastalFeature),
      f ∈ detectGo coastline step maxAbs threshold fuel idx →
      (0 < f.strength ∧ f.strength ≤ 1) ∧
      (∃ k, k < coastline.length - 1 ∧
        threshold ≤ |curvAt coastline step k| ∧
        (f.type = FeatureType.bay ↔ 0 < curvAt coastline step k) ∧
        (f.type = FeatureType.cape ↔ ¬ 0 < curvAt coastline step k)) ∧
      (∃ sp : ℕ, 2 ≤ sp ∧
        f.bandwidth = max (step * 8) (Real.sqrt (sp : ℝ) * step * 1.6))
  | 0, _, _, hmem => absurd hmem (List.not_mem_nil _)
  | fuel + 1, idx, f, hmem => by
      unfold detectGo at hmem
      by_cases hidx : idx < coastline.length - 1
      · rw [if_pos hidx] at hmem
        by_cases hsmall : |curvAt coastline step idx| < threshold
        · rw [if_pos hsmall] at hmem
          exact detectGo_spec coastline step maxAbs threshold hmax0 hthr
            hbound fuel (idx + 1) f hmem
        · rw [if_neg hsmall] at hmem
          dsimp only at hmem
          rcases List.mem_cons.1 hmem with hf | hf
          · subst hf
            dsimp only
            have hpk_ge : |curvAt coastline step idx| ≤
                (growRun coastline step (jsSign (curvAt coastline step idx))
                  threshold (coastline.length - idx)
                  ⟨idx, 0, 0, |curvAt coastline step idx|⟩).peakStrength :=
              growRun_peak_ge coastline step
                (jsSign (curvAt coastline step idx)) threshold
                (coastline.length - idx)
                ⟨idx, 0, 0, |curvAt coastline step idx|⟩
            have hpk_le : (growRun coastline step
                (jsSign (curvAt coastline step idx)) threshold
                (coastline.length - idx)
                ⟨idx, 0, 0, |curvAt coastline step idx|⟩).peakStrength
                ≤ maxAbs :=
              growRun_peak_le coastline step _ threshold maxAbs hbound _ _
                (hbound idx (by omega))
            have hthr_le : threshold ≤ |curvAt coastline step idx| :=
              not_lt.1 hsmall
            have hthr_pos : 0 < threshold := by rw [hthr]; positivity
            refine ⟨⟨div_pos (by linarith) hmax0,
              (div_le_one hmax0).2 hpk_le⟩, ⟨idx, hidx, hthr_le, ?_, ?_⟩,
              ⟨max 2 ((growRun coastline step
                (jsSign (curvAt coastline step idx)) threshold
                (coastline.length - idx)
                ⟨idx, 0, 0, |curvAt coastline step idx|⟩).segmentEnd - idx
                  + 1), le_max_left _ _, rfl⟩⟩
            · constructor
              · intro hbay
                by_contra hnpos
                rw [if_neg (by
                  unfold jsSign
                  rw [if_neg (by exact hnpos)]
                  split
                  · norm_num
                  · norm_num)] at hbay
                exact FeatureType.noConfusion hbay
              · intro hpos
                rw [if_pos (by unfold jsSign; rw [if_pos hpos]; norm_num)]
            · constructor
              · intro hcape hpos
                rw [if_pos (by unfold jsSign; rw [if_pos hpos]; norm_num)]
                  at hcape
                exact FeatureType.noConfusion hcape
              · intro hnpos
                rw [if_neg (by
                  unfold jsSign
                  rw [if_neg (by exact hnpos)]
                  split
                  · norm_num
                  · norm_num)]
          · exact detectGo_spec coastline step maxAbs threshold hmax0 hthr
              hbound fuel _ f hf
      · rw [if_neg hidx] at hmem
        exact absurd hmem (List.not_mem_nil _)

/-- **C9.**  Coastal feature detection: if the maximum absolute
second-difference curvature is below `1e-6` (or the sampling is
degenerate) the result is empty; otherwise every returned feature has
normalized strength in `(0, 1]` (its run's peak curvature magnitude over
the global maximum), is a `bay` exactly when its run's curvature sign is
positive and a `cape` otherwise, and its bandwidth is
`max(8·step, sqrt(span)·step·1.6)` for the run's span `≥ 2`. -/
theorem claim9_features (coastline : List CoastlinePoint) :
    (maxAbsCurvature coastline (coastlineStepOf coastline) < 1e-6 →
      coastalFeatures coastline = []) ∧
    (∀ f ∈ coastalFeatures coastline,
      (0 < f.strength ∧ f.strength ≤ 1) ∧
      (∃ k, k < coastline.length - 1 ∧
        maxAbsCurvature coastline (coastlineStepOf coastline) * 0.18 ≤
          |curvAt coastline (coastlineStepOf coastline) k| ∧
        (f.type = FeatureType.bay ↔
          0 < curvAt coastline (coastlineStepOf coastline) k) ∧
        (f.type = FeatureType.cape ↔
          ¬ 0 < curvAt coastline (coastlineStepOf coastline) k)) ∧
      (∃ sp : ℕ, 2 ≤ sp ∧
        f.bandwidth = max (coastlineStepOf coastline * 8)
          (Real.sqrt (sp : ℝ) * coastlineStepOf coastline * 1.6))) := by
  constructor
  · intro hsmall
    unfold coastalFeatures
    by_cases hdeg : coastline.length < 5 ∨ coastlineStepOf coastline ≤ 0
    · rw [if_pos hdeg]
    · rw [if_neg hdeg, if_pos hsmall]
  · intro f hf
    unfold coastalFeatures at hf
    by_cases hdeg : coastline.length < 5 ∨ coastlineStepOf coastline ≤ 0
    · rw [if_pos hdeg] at hf
      exact absurd hf (List.not_mem_nil _)
    · rw [if_neg hdeg] at hf
      by_cases hsmall :
          maxAbsCurvature coastline (coastlineStepOf coastline) < 1e-6
      · rw [if_pos hsmall] at hf
        exact absurd hf (List.not_mem_nil _)
      · rw [if_neg hsmall] at hf
        exact detectGo_spec coastline (coastlineStepOf coastline)
          (maxAbsCurvature coastline (coastlineStepOf coastline))
          (maxAbsCurvature coastline (coastlineStepOf coastline) * 0.18)
          (by linarith [not_lt.1 hsmall]) rfl
          (fun idx hidx =>
            abs_curv_le_maxAbs coastline (coastlineStepOf coastline) hidx)
          coastline.length 1 f hf

lemma getLastD_cons_of_ne {α : Type} :
    ∀ (l : List α) (a d : α), l ≠ [] →
      (a :: l).getLastD d = l.getLastD d
  | [], _, _, h => absurd rfl h
  | _ :: _, _, _, _ => rfl

lemma getLastD_append_singleton {α : Type} :
    ∀ (l : List α) (a d : α), (l ++ [a]).getLastD d = a
  | [], _, _ => rfl
  | b :: t, a, d => by
      rw [List.cons_append, List.getLastD_cons]
      exact getLastD_append_singleton t a b

lemma traceGo_succ_shape (gridX gridY : ℕ)
    (domainWidth domainHeight dxPhys dyPhys stepSize : ℝ) (grid : Grid)
    (coastline : List CoastlinePoint) (features : List CoastalFeature)
    (fuel : ℕ) (x y : ℝ) :
    (∃ cx, traceGo gridX gridY domainWidth domainHeight dxPhys dyPhys
        stepSize grid coastline features (fuel + 1) x y
      = ([⟨cx, getCoastlineY coastline cx⟩], x)) ∨
    (∃ cx nx, traceGo gridX gridY domainWidth domainHeight dxPhys dyPhys
        stepSize grid coastline features (fuel + 1) x y
      = ([⟨x, y⟩, ⟨cx, getCoastlineY coastline cx⟩], nx)) ∨
    (∃ nx ny,
      traceGo gridX gridY domainWidth domainHeight dxPhys dyPhys stepSize
          grid coastline features (fuel + 1) x y
        = ((⟨x, y⟩ : RayPoint) ::
            (traceGo gridX gridY domainWidth domainHeight dxPhys dyPhys
              stepSize grid coastline features fuel nx ny).1,
           (traceGo gridX gridY domainWidth domainHeight dxPhys dyPhys
              stepSize grid coastline features fuel nx ny).2) ∧
      samplePoint gridX gridY domainWidth domainHeight dxPhys dyPhys grid
          x y ≠ none ∧
        ((samplePoint gridX gridY domainWidth domainHeight dxPhys dyPhys grid
          x y).getD ⟨0, 0, 0, 0, 0, 0⟩).h > 0.1) := by
  by_cases hdry : samplePoint gridX gridY domainWidth domainHeight dxPhys
      dyPhys grid x y = none ∨
      ((samplePoint gridX gridY domainWidth domainHeight dxPhys dyPhys grid
        x y).getD ⟨0, 0, 0, 0, 0, 0⟩).h ≤ 0.1
  · refine Or.inl ⟨max 0 (min domainWidth x), ?_⟩
    conv_lhs => unfold traceGo
    dsimp only
    rw [if_pos hdry]
  · by_cases hexit :
        (traceMove domainHeight stepSize coastline features
          ((samplePoint gridX gridY domainWidth domainHeight dxPhys dyPhys
            grid x y).getD ⟨0, 0, 0, 0, 0, 0⟩) x y).1 < 0 ∨
        (traceMove domainHeight stepSize coastline features
          ((samplePoint gridX gridY domainWidth domainHeight dxPhys dyPhys
            grid x y).getD ⟨0, 0, 0, 0, 0, 0⟩) x y).1 > domainWidth ∨
        (traceMove domainHeight stepSize coastline features
          ((samplePoint gridX gridY domainWidth domainHeight dxPhys dyPhys
            grid x y).getD ⟨0, 0, 0, 0, 0, 0⟩) x y).2 < 0
    · refine Or.inr (Or.inl ⟨max 0 (min domainWidth
        (traceMove domainHeight stepSize coastline features
          ((samplePoint gridX gridY domainWidth domainHeight dxPhys dyPhys
            grid x y).getD ⟨0, 0, 0, 0, 0, 0⟩) x y).1),
        (traceMove domainHeight stepSize coastline features
          ((samplePoint gridX gridY domainWidth domainHeight dxPhys dyPhys
            grid x y).getD ⟨0, 0, 0, 0, 0, 0⟩) x y).1, ?_⟩)
      conv_lhs => unfold traceGo
      dsimp only
      rw [if_neg hdry, if_pos hexit]
    · push_neg at hdry
      refine Or.inr (Or.inr ⟨(traceMove domainHeight stepSize coastline
          features ((samplePoint gridX gridY domainWidth domainHeight dxPhys
            dyPhys grid x y).getD ⟨0, 0, 0, 0, 0, 0⟩) x y).1,
        (traceMove domainHeight stepSize coastline features
          ((samplePoint gridX gridY domainWidth domainHeight dxPhys dyPhys
            grid x y).getD ⟨0, 0, 0, 0, 0, 0⟩) x y).2, ?_, hdry.1, hdry.2⟩)
      conv_lhs => unfold traceGo
      dsimp only
      rw [if_neg (by push_neg; exact hdry), if_neg hexit]

lemma traceGo_spec (gridX gridY : ℕ)
    (domainWidth domainHeight dxPhys dyPhys stepSize : ℝ) (grid : Grid)
    (coastline : List CoastlinePoint) (features : List CoastalFeature) :
    ∀ (fuel : ℕ) (x y : ℝ),
      (traceGo gridX gridY domainWidth domainHeight dxPhys dyPhys stepSize
        grid coastline features fuel x y).1.length ≤ fuel + 1 ∧
      ((traceGo gridX gridY domainWidth domainHeight dxPhys dyPhys stepSize
          grid coastline features fuel x y).1 = [] ∨
       (∃ cx, (traceGo gridX gridY domainWidth domainHeight dxPhys dyPhys
          stepSize grid coastline features fuel x y).1.getLastD ⟨0, 0⟩ =
            ⟨cx, getCoastlineY coastline cx⟩) ∨
       (∃ gp, samplePoint gridX gridY domainWidth domainHeight dxPhys dyPhys
          grid
          ((traceGo gridX gridY domainWidth domainHeight dxPhys dyPhys
            stepSize grid coastline features fuel x y).1.getLastD ⟨0, 0⟩).x
          ((traceGo gridX gridY domainWidth domainHeight dxPhys dyPhys
            stepSize grid coastline features fuel x y).1.getLastD ⟨0, 0⟩).y
          = some gp ∧ gp.h > 0.1))
  | 0, x, y => ⟨by unfold traceGo; simp, Or.inl rfl⟩
  | fuel + 1, x, y => by
      have ih := fun x' y' => traceGo_spec gridX gridY domainWidth
        domainHeight dxPhys dyPhys stepSize grid coastline features fuel x' y'
      rcases traceGo_succ_shape gridX gridY domainWidth domainHeight dxPhys
          dyPhys stepSize grid coastline features fuel x y with
        ⟨cx, heq⟩ | ⟨cx, nx, heq⟩ | ⟨nx, ny, heq, hne, hwet0⟩
      · rw [heq]
        refine ⟨by simp, Or.inr (Or.inl ⟨cx, rfl⟩)⟩
      · rw [heq]
        refine ⟨?_, Or.inr (Or.inl ⟨cx, rfl⟩)⟩
        simp only [List.length_cons, List.length_nil]
        omega
      · rw [heq]
        obtain ⟨gp, hgp⟩ := Option.ne_none_iff_exists'.1 hne
        have hwet : gp.h > 0.1 := by
          rw [hgp, Option.getD_some] at hwet0
          exact hwet0
        constructor
        · simp only [List.length_cons]
          have := (ih nx ny).1
          omega
        · by_cases hrest : (traceGo gridX gridY domainWidth domainHeight
              dxPhys dyPhys stepSize grid coastline features fuel nx ny).1
              = []
          · rw [hrest]
            exact Or.inr (Or.inr ⟨gp, hgp, hwet⟩)
          · rw [getLastD_cons_of_ne _ _ _ hrest]
            rcases (ih nx ny).2 with h | h | h
            · exact absurd h hrest
            · exact Or.inr (Or.inl h)
            · exact Or.inr (Or.inr h)

/-- **C6 (amended).**  `traceRayFromDeep` always returns a path of at most
`gridY·3 + 2` points (the step cap, one boundary/coast snap, one fix-up),
and its last point — when the path is nonempty — either lies on the
coastline curve `(cx, getCoastlineY(cx))` (the dry-sample snap, the
domain-exit snap and the short-path fix-up all push such a point), or is
an interior position whose sampled cell is wet (`h > 0.1`): the latter
happens when the fixed step cap runs out mid-water, so the original
claim's "last point has depth ≈ 0 or lies on a domain boundary" does not
always hold. -/
theorem claim6_amended (gridX gridY : ℕ) (domainWidth domainHeight : ℝ)
    (grid : Grid) (coastline : List CoastlinePoint)
    (features : List CoastalFeature) (startIndex : ℕ) :
    (traceRayFromDeep gridX gridY domainWidth domainHeight grid coastline
      features startIndex).length ≤ gridY * 3 + 2 ∧
    ((traceRayFromDeep gridX gridY domainWidth domainHeight grid coastline
        features startIndex) = [] ∨
     (∃ cx, (traceRayFromDeep gridX gridY domainWidth domainHeight grid
        coastline features startIndex).getLastD ⟨0, 0⟩ =
          ⟨cx, getCoastlineY coastline cx⟩) ∨
     (∃ gp, samplePoint gridX gridY domainWidth domainHeight
        (domainWidth / ((gridX : ℝ) - 1)) (domainHeight / ((gridY : ℝ) - 1))
        grid
        ((traceRayFromDeep gridX gridY domainWidth domainHeight grid
          coastline features startIndex).getLastD ⟨0, 0⟩).x
        ((traceRayFromDeep gridX gridY domainWidth domainHeight grid
          coastline features startIndex).getLastD ⟨0, 0⟩).y
        = some gp ∧ gp.h > 0.1)) := by
  have hs := traceGo_spec gridX gridY domainWidth domainHeight
    (domainWidth / ((gridX : ℝ) - 1)) (domainHeight / ((gridY : ℝ) - 1))
    (domainHeight / ((gridY : ℝ) - 1) * 0.85) grid coastline features
    (gridY * 3) (grid (gridY - 1) startIndex).x
    (grid (gridY - 1) startIndex).y
  unfold traceRayFromDeep
  dsimp only
  split
  · exact ⟨by norm_num, Or.inl rfl⟩
  · split
    · rename_i hshort
      constructor
      · rw [List.length_append]
        simp only [List.length_cons, List.length_nil]
        omega
      · rw [getLastD_append_singleton]
        exact Or.inr (Or.inl ⟨_, rfl⟩)
    · refine ⟨?_, hs.2⟩
      have := hs.1
      omega

lemma traceGo_zero (gridX gridY : ℕ)
    (domainWidth domainHeight dxPhys dyPhys stepSize : ℝ) (grid : Grid)
    (coastline : List CoastlinePoint) (features : List CoastalFeature)
    (x y : ℝ) :
    traceGo gridX gridY domainWidth domainHeight dxPhys dyPhys stepSize
      grid coastline features 0 x y = ([], x) := rfl

lemma sampleCexRay (dxPhys dyPhys x y : ℝ) (hx0 : 0 ≤ x) (hx1 : x ≤ 1000)
    (hy0 : 0 ≤ y) (hy1 : y ≤ 100) :
    samplePoint 2 2 1000 100 dxPhys dyPhys cexRayGrid x y
      = some ⟨0, 100, 20, 1, 1, Real.arccos (1 / 6)⟩ := by
  unfold samplePoint
  rw [if_neg (by push_neg; exact ⟨hx0, hx1, hy0, hy1⟩)]
  rfl

lemma traceMoveCex (stepSize : ℝ) (hS : stepSize = 85) (x y : ℝ) :
    traceMove 100 stepSize [] []
        ⟨0, 100, 20, 1, 1, Real.arccos (1 / 6)⟩ x y
      = (x + 63.75, y - 85 / 6) := by
  subst hS
  have hsin : Real.sin (Real.arccos (1 / 6 : ℝ)) = Real.sqrt 35 / 6 := by
    rw [Real.sin_arccos]
    rw [show (1 : ℝ) - (1 / 6 : ℝ) ^ 2 = (Real.sqrt 35 / 6) ^ 2 by
      conv_rhs => rw [div_pow, Real.sq_sqrt (by norm_num : (0:ℝ) ≤ 35)]
      norm_num]
    exact Real.sqrt_sq (by positivity)
  have hcos : Real.cos (Real.arccos (1 / 6 : ℝ)) = 1 / 6 :=
    Real.cos_arccos (by norm_num) (by norm_num)
  have h45 : (4.5 : ℝ) < Real.sqrt 35 := by
    nlinarith [Real.sq_sqrt (show (0:ℝ) ≤ 35 by norm_num),
      Real.sqrt_nonneg 35]
  unfold traceMove
  dsimp only
  rw [if_neg (by rintro ⟨-, -, h⟩; exact h rfl)]
  rw [hsin, hcos]
  have hmin : min (85 * 0.75 : ℝ) (Real.sqrt 35 / 6 * 85) = 85 * 0.75 :=
    min_eq_left (by nlinarith [h45])
  rw [hmin, max_eq_right (by norm_num : (-(85 * 0.75) : ℝ) ≤ 85 * 0.75)]
  rw [Prod.mk.injEq]
  constructor
  · norm_num
  · norm_num

lemma traceGoCexStep (dxPhys dyPhys stepSize : ℝ) (hS : stepSize = 85)
    (fuel : ℕ) (x y : ℝ) (hx0 : 0 ≤ x) (hx1 : x + 63.75 ≤ 1000)
    (hy0 : 85 / 6 ≤ y) (hy1 : y ≤ 100) :
    traceGo 2 2 1000 100 dxPhys dyPhys stepSize cexRayGrid [] []
        (fuel + 1) x y
      = ((⟨x, y⟩ : RayPoint) ::
          (traceGo 2 2 1000 100 dxPhys dyPhys stepSize cexRayGrid [] []
            fuel (x + 63.75) (y - 85 / 6)).1,
         (traceGo 2 2 1000 100 dxPhys dyPhys stepSize cexRayGrid [] []
            fuel (x + 63.75) (y - 85 / 6)).2) := by
  have hsample := sampleCexRay dxPhys dyPhys x y hx0 (by linarith)
    (by linarith) hy1
  have hmv := traceMoveCex stepSize hS x y
  conv_lhs => unfold traceGo
  dsimp only
  rw [hsample]
  rw [if_neg (by
    rintro (h | h)
    · exact Option.noConfusion h
    · rw [Option.getD_some] at h
      norm_num at h)]
  rw [Option.getD_some, hmv]
  dsimp only
  rw [if_neg (by push_neg; refine ⟨by linarith, by linarith, by linarith⟩)]

/-- **C6, counterexample.**  On a uniformly deep 2×2 grid (depth 20 m
everywhere) with wave angle `arccos(1/6)`, the traced ray's `x`-advance is
clamped to `0.75·stepSize` while its shoreward `y`-advance is only
`stepSize/6` per step, so the `gridY·3 = 6` step cap runs out mid-water:
the returned path's last point is `(318.75, 175/6)`, strictly inside the
domain `[0,1000]×[0,100]`, its sampled depth is `20` (not `≈ 0`), and it
does not lie on the coastline (`getCoastlineY = 0` there): the claimed
"last point has depth ≈ 0 or lies on a domain boundary" fails. -/
theorem claim6_counterexample :
    ((traceRayFromDeep 2 2 1000 100 cexRayGrid [] [] 0).getLastD
      ⟨0, 0⟩).x = 318.75 ∧
    ((traceRayFromDeep 2 2 1000 100 cexRayGrid [] [] 0).getLastD
      ⟨0, 0⟩).y = 175 / 6 ∧
    (∃ gp, samplePoint 2 2 1000 100 (1000 / (((2:ℕ) : ℝ) - 1))
        (100 / (((2:ℕ) : ℝ) - 1)) cexRayGrid 318.75 (175 / 6) = some gp ∧
      gp.h = 20) ∧
    getCoastlineY [] (318.75 : ℝ) = 0 ∧
    (0 : ℝ) < 318.75 ∧ (318.75 : ℝ) < 1000 ∧
    (0 : ℝ) < 175 / 6 ∧ (175 / 6 : ℝ) < 100 := by
  have hstep := traceGoCexStep ((1000 : ℝ) / (((2:ℕ) : ℝ) - 1))
    ((100 : ℝ) / (((2:ℕ) : ℝ) - 1)) ((100 : ℝ) / (((2:ℕ) : ℝ) - 1) * 0.85)
    (by norm_num)
  have e5 := hstep 5 0 100 (by norm_num) (by norm_num) (by norm_num)
    (by norm_num)
  have e4 := hstep 4 (0 + 63.75) (100 - 85 / 6) (by norm_num) (by norm_num)
    (by norm_num) (by norm_num)
  have e3 := hstep 3 (0 + 63.75 + 63.75) (100 - 85 / 6 - 85 / 6)
    (by norm_num) (by norm_num) (by norm_num) (by norm_num)
  have e2 := hstep 2 (0 + 63.75 + 63.75 + 63.75)
    (100 - 85 / 6 - 85 / 6 - 85 / 6)
    (by norm_num) (by norm_num) (by norm_num) (by norm_num)
  have e1 := hstep 1 (0 + 63.75 + 63.75 + 63.75 + 63.75)
    (100 - 85 / 6 - 85 / 6 - 85 / 6 - 85 / 6)
    (by norm_num) (by norm_num) (by norm_num) (by norm_num)
  have e0 := hstep 0 (0 + 63.75 + 63.75 + 63.75 + 63.75 + 63.75)
    (100 - 85 / 6 - 85 / 6 - 85 / 6 - 85 / 6 - 85 / 6)
    (by norm_num) (by norm_num) (by norm_num) (by norm_num)
  have hfull : traceGo 2 2 1000 100 ((1000 : ℝ) / (((2:ℕ) : ℝ) - 1))
      ((100 : ℝ) / (((2:ℕ) : ℝ) - 1)) ((100 : ℝ) / (((2:ℕ) : ℝ) - 1) * 0.85)
      cexRayGrid [] [] 6 0 100
      = ([⟨0, 100⟩, ⟨0 + 63.75, 100 - 85 / 6⟩,
          ⟨0 + 63.75 + 63.75, 100 - 85 / 6 - 85 / 6⟩,
          ⟨0 + 63.75 + 63.75 + 63.75, 100 - 85 / 6 - 85 / 6 - 85 / 6⟩,
          ⟨0 + 63.75 + 63.75 + 63.75 + 63.75,
            100 - 85 / 6 - 85 / 6 - 85 / 6 - 85 / 6⟩,
          ⟨0 + 63.75 + 63.75 + 63.75 + 63.75 + 63.75,
            100 - 85 / 6 - 85 / 6 - 85 / 6 - 85 / 6 - 85 / 6⟩],
         0 + 63.75 + 63.75 + 63.75 + 63.75 + 63.75 + 63.75) := by
    simp only [e5, e4, e3, e2, e1, e0, traceGo_zero]
  have hD : traceRayFromDeep 2 2 1000 100 cexRayGrid [] [] 0
      = [⟨0, 100⟩, ⟨0 + 63.75, 100 - 85 / 6⟩,
          ⟨0 + 63.75 + 63.75, 100 - 85 / 6 - 85 / 6⟩,
          ⟨0 + 63.75 + 63.75 + 63.75, 100 - 85 / 6 - 85 / 6 - 85 / 6⟩,
          ⟨0 + 63.75 + 63.75 + 63.75 + 63.75,
            100 - 85 / 6 - 85 / 6 - 85 / 6 - 85 / 6⟩,
          ⟨0 + 63.75 + 63.75 + 63.75 + 63.75 + 63.75,
            100 - 85 / 6 - 85 / 6 - 85 / 6 - 85 / 6 - 85 / 6⟩] := by
    unfold traceRayFromDeep
    dsimp only
    rw [if_neg (by
      rw [show (cexRayGrid (2 - 1) 0).h = 20 from rfl]
      norm_num)]
    rw [show (cexRayGrid (2 - 1) 0).x = 0 from rfl,
      show (cexRayGrid (2 - 1) 0).y = 100 from rfl,
      show (2 * 3 : ℕ) = 6 from rfl, hfull]
    rw [if_neg (by simp)]
  rw [hD]
  refine ⟨by norm_num [List.getLastD], by norm_num [List.getLastD],
    ⟨⟨0, 100, 20, 1, 1, Real.arccos (1 / 6)⟩,
      sampleCexRay _ _ 318.75 (175 / 6) (by norm_num) (by norm_num)
        (by norm_num) (by norm_num), rfl⟩,
    rfl, by norm_num, by norm_num, by norm_num, by norm_num⟩

end

end WaveRef
